import Mathlib

/-!
Verification development for the SVG-to-IFC geometry/format translation core
(`svg2ifc.py`) and the multi-floor IFC stacker (`stack_ifc.py`).

The Python source is shallowly embedded over exact rational arithmetic (`ℚ`).
Conventions used throughout, stated once here:

* Python floats are modelled as `ℚ`.  Every numeric literal of the source
  (`1e-6`, `1e-12`, `1e9`, `1e18`, `0.1`, ...) is carried over exactly.
* Lexical preprocessing done in the source by regular expressions
  (tokenizing a transform attribute into `(name, argument-strings)` pairs,
  splitting a `points` attribute into number tokens, matching a length
  attribute into `(value, unit)`) is modelled by taking the already-split
  token lists as input; the token-to-float conversion `float(...)` - which
  can raise `ValueError` - is modelled by an explicit conversion oracle
  `toF : String → Option ℚ` passed to each embedded function, with `none`
  meaning Python's `ValueError`.  `decQ` below is a concrete decimal-literal
  instance of that oracle used in concrete examples.
* Transcendental functions (`math.cos`, `math.sin`, `math.atan2`,
  `math.sqrt`, `math.pi`) are modelled by an oracle record `TrigOps`; the
  properties proved here (composition order, determinism, selection logic)
  do not depend on their values.  `trig0` is a placeholder instance for
  concrete examples that never reach a trigonometric branch.
* `math.hypot` appears in the source only as a quantity that is compared
  with `<` or returned; since `Real.sqrt` is strictly monotone on
  nonnegative arguments, the embedding carries the *squared* euclidean
  distance everywhere (`dist_point_to_segment`, `closest_wall_edge`,
  `build_hosted`), with every distance sentinel squared accordingly
  (`1e18 ↦ 1e36`, `1e9 ↦ 1e18`).  Minimization and tie-breaking are
  unchanged by this strictly monotone reparameterization.
* A Python exception escaping a function is modelled with `Except String`
  (or `Option` where the source distinguishes no error message).
* Recursions whose termination measure is not structural in the source
  (tree walks, the path-command loop which can genuinely diverge on inputs
  like `M 0 0 Z 5`) take an explicit fuel argument; any fuel larger than
  the input size reproduces the source semantics, and fuel exhaustion
  models divergence.
-/

namespace SvgIfc

/-! ## Character and string helpers

Python string primitives (`str.lower`, `str.strip`, `str.split`,
`str.replace`, `str.startswith`, substring `in`, `re.sub` character-class
replacement) re-implemented over `List Char` by structural recursion so
that all of them evaluate inside the kernel.  ASCII behaviour is what the
source relies on (identifiers, unit suffixes, type tokens). -/

def lowerStr (s : String) : String :=
  String.mk (s.data.map Char.toLower)

def trimList (l : List Char) : List Char :=
  ((l.dropWhile Char.isWhitespace).reverse.dropWhile Char.isWhitespace).reverse

/-- Python `s.strip()`. -/
def trimStr (s : String) : String :=
  String.mk (trimList s.data)

/-- Python `s.startswith(pre)`. -/
def strStarts (s pre : String) : Bool :=
  pre.data.isPrefixOf s.data

/-- Split a character list at every occurrence of `sep` (Python `str.split(sep)`). -/
def splitCharAux (sep : Char) : List Char → List Char → List (List Char)
  | [], acc => [acc.reverse]
  | c :: t, acc => if c = sep then acc.reverse :: splitCharAux sep t [] else splitCharAux sep t (c :: acc)

def splitStr (sep : Char) (s : String) : List String :=
  (splitCharAux sep s.data []).map String.mk

/-- Python substring test `pat in hay`. -/
def strContainsL (pat : List Char) : List Char → Bool
  | [] => pat.isPrefixOf []
  | c :: t => pat.isPrefixOf (c :: t) || strContainsL pat t

def strContains (hay pat : String) : Bool :=
  strContainsL pat.data hay.data

/-- One fuel-indexed step list of Python `str.replace(old, new)`:
left-to-right, non-overlapping.  Fuel `l.length` is always enough since
`old` is nonempty at every use site. -/
def replaceAux (old new : List Char) : ℕ → List Char → List Char
  | _, [] => []
  | 0, l => l
  | fuel + 1, c :: t =>
      if old.isPrefixOf (c :: t) then new ++ replaceAux old new fuel ((c :: t).drop old.length)
      else c :: replaceAux old new fuel t

def replaceStr (s old new : String) : String :=
  String.mk (replaceAux old.data new.data s.data.length s.data)

/-- Characters kept verbatim by `re.sub(r"[^a-z0-9_]+", "_", s)`. -/
def tokenChar (c : Char) : Bool :=
  (decide ('a' ≤ c) && decide (c ≤ 'z')) || (decide ('0' ≤ c) && decide (c ≤ '9')) || decide (c = '_')

/-- `re.sub(r"[^a-z0-9_]+", "_", s)`: each maximal run of non-token
characters becomes a single underscore.  `ranBad` records whether the
previous character was part of such a run. -/
def collapseBadAux (ranBad : Bool) : List Char → List Char
  | [] => []
  | c :: t =>
      if tokenChar c then c :: collapseBadAux false t
      else if ranBad then collapseBadAux true t
      else '_' :: collapseBadAux true t

def collapseBad (s : String) : String :=
  String.mk (collapseBadAux false s.data)

/-- Characters kept by `_norm`'s `re.sub(r"[^a-z0-9]+", "", ...)`. -/
def alnumChar (c : Char) : Bool :=
  (decide ('a' ≤ c) && decide (c ≤ 'z')) || (decide ('0' ≤ c) && decide (c ≤ '9'))

/-! ## Numeric-conversion oracle

`decQ` is a concrete instance of the `float(...)` oracle: it accepts an
optional sign, then a decimal literal `digits`, `digits.digits`,
`digits.` or `.digits`, and rejects everything else.  It exists so that
concrete counterexamples and witnesses can be *evaluated*; every embedded
definition is parameterized over an arbitrary oracle. -/

def digitsToNat : List Char → Option ℕ
  | [] => none
  | l => l.foldl (fun acc c => acc.bind (fun n => if c.isDigit then some (n * 10 + (c.toNat - 48)) else none)) (some 0)

def decQ (s : String) : Option ℚ :=
  let l := s.data
  let sgn : ℚ × List Char :=
    match l with
    | '+' :: t => (1, t)
    | '-' :: t => (-1, t)
    | _ => (1, l)
  match splitCharAux '.' sgn.2 [] with
  | [ip] => (digitsToNat ip).map (fun n => sgn.1 * (n : ℚ))
  | [ip, fp] =>
      if ip.isEmpty && fp.isEmpty then none
      else
        let ipn : Option ℕ := if ip.isEmpty then some 0 else digitsToNat ip
        let fpn : Option ℕ := if fp.isEmpty then some 0 else digitsToNat fp
        match ipn, fpn with
        | some a, some b => some (sgn.1 * ((a : ℚ) + (b : ℚ) / (10 : ℚ) ^ fp.length))
        | _, _ => none
  | _ => none

/-! ## TransformAlgebra (`parse_transform`, `apply_transform`) -/

/-- Oracle for Python's `math.cos`, `math.sin`, `math.atan2`, `math.sqrt`
and the constant `math.pi`; see the file header. -/
structure TrigOps where
  cos : ℚ → ℚ
  sin : ℚ → ℚ
  atan2 : ℚ → ℚ → ℚ
  sqrt : ℚ → ℚ
  pi : ℚ

/-- Placeholder oracle for concrete runs that never hit a trig branch. -/
def trig0 : TrigOps :=
  { cos := fun _ => 0, sin := fun _ => 0, atan2 := fun _ _ => 0, sqrt := fun _ => 0, pi := 0 }

/-- `math.radians(x) = x * pi / 180`. -/
def degToRad (tr : TrigOps) (x : ℚ) : ℚ :=
  x * tr.pi / 180

/-- Row-major 3x3 matrix over `ℚ` (numpy's `np.identity(3)` world). -/
structure Mat3 where
  m00 : ℚ
  m01 : ℚ
  m02 : ℚ
  m10 : ℚ
  m11 : ℚ
  m12 : ℚ
  m20 : ℚ
  m21 : ℚ
  m22 : ℚ
deriving DecidableEq

def Mat3.id : Mat3 := ⟨1, 0, 0, 0, 1, 0, 0, 0, 1⟩

def Mat3.mul (A B : Mat3) : Mat3 :=
  ⟨A.m00 * B.m00 + A.m01 * B.m10 + A.m02 * B.m20,
   A.m00 * B.m01 + A.m01 * B.m11 + A.m02 * B.m21,
   A.m00 * B.m02 + A.m01 * B.m12 + A.m02 * B.m22,
   A.m10 * B.m00 + A.m11 * B.m10 + A.m12 * B.m20,
   A.m10 * B.m01 + A.m11 * B.m11 + A.m12 * B.m21,
   A.m10 * B.m02 + A.m11 * B.m12 + A.m12 * B.m22,
   A.m20 * B.m00 + A.m21 * B.m10 + A.m22 * B.m20,
   A.m20 * B.m01 + A.m21 * B.m11 + A.m22 * B.m21,
   A.m20 * B.m02 + A.m21 * B.m12 + A.m22 * B.m22⟩

instance : Mul Mat3 := ⟨Mat3.mul⟩

/-- A transform primitive as produced by the source's regex
`([a-zA-Z]+)\s*\(([^)]*)\)` followed by the `[,\s]+` argument split:
function name and raw argument tokens. -/
abbrev Prim := String × List String

/-- The matrix `T` built for one primitive once its arguments have been
converted to numbers (`svg2ifc.py` lines 301-323).  Unrecognized names and
a `matrix` with fewer than six values leave `T` as the identity. -/
def prim_matrix (tr : TrigOps) (fn : String) (vals : List ℚ) : Mat3 :=
  if fn = "translate" then
    ⟨1, 0, vals.getD 0 0, 0, 1, vals.getD 1 0, 0, 0, 1⟩
  else if fn = "scale" then
    let sx := vals.getD 0 1
    let sy := vals.getD 1 sx
    ⟨sx, 0, 0, 0, sy, 0, 0, 0, 1⟩
  else if fn = "rotate" then
    let ang := degToRad tr (vals.getD 0 0)
    let cx : ℚ := if 2 < vals.length then vals.getD 1 0 else 0
    let cy : ℚ := if 2 < vals.length then vals.getD 2 0 else 0
    let c := tr.cos ang
    let si := tr.sin ang
    Mat3.mul (Mat3.mul ⟨1, 0, cx, 0, 1, cy, 0, 0, 1⟩ ⟨c, -si, 0, si, c, 0, 0, 0, 1⟩) ⟨1, 0, -cx, 0, 1, -cy, 0, 0, 1⟩
  else if fn = "matrix" then
    if 6 ≤ vals.length then
      ⟨vals.getD 0 0, vals.getD 2 0, vals.getD 4 0, vals.getD 1 0, vals.getD 3 0, vals.getD 5 0, 0, 0, 1⟩
    else Mat3.id
  else Mat3.id

/-- The list comprehension `[float(a) for a in args]`: converts left to
right, the whole comprehension raising (`none`) at the first failing
token. -/
def mapOpt (toF : String → Option ℚ) : List String → Option (List ℚ)
  | [] => some []
  | t :: ts =>
      match toF t with
      | none => none
      | some v =>
          match mapOpt toF ts with
          | none => none
          | some vs => some (v :: vs)

/-- The `for fn, args_str in func_re.findall(s)` loop of
`parse_transform`, carried out on an accumulator matrix. -/
def parse_transform_go (tr : TrigOps) (toF : String → Option ℚ) (M : Mat3) : List Prim → Option Mat3
  | [] => some M
  | p :: ps =>
      match mapOpt toF p.2 with
      | none => none
      | some vals => parse_transform_go tr toF (M * prim_matrix tr (lowerStr p.1) vals) ps

/-- `parse_transform` (`svg2ifc.py` lines 291-326) over the list of lexed
primitives.  `M = M @ T` composes left to right.  A `none` result models
the uncaught `ValueError` raised by `float(a)` on a non-numeric argument
token. -/
def parse_transform (tr : TrigOps) (toF : String → Option ℚ) (prims : List Prim) : Option Mat3 :=
  parse_transform_go tr toF Mat3.id prims

abbrev Point := ℚ × ℚ

/-- `apply_transform` (`svg2ifc.py` lines 328-334): homogeneous action on
2D points. -/
def apply_transform (M : Mat3) (pts : List Point) : List Point :=
  pts.map (fun q => (M.m00 * q.1 + M.m01 * q.2 + M.m02, M.m10 * q.1 + M.m11 * q.2 + M.m12))

/-! ## VectorDrawingParser (`parse_length_mm`, `compute_svg_unit_to_meter`,
`parse_points_attr`, `rect_to_poly`, `classify_fill`, `iter_floorplan_shapes`) -/

/-- `parse_length_mm` (`svg2ifc.py` lines 242-256).  The input models the
result of the source's regex match: `none` for a missing attribute or a
non-matching string, `some (val, unit)` for a matched numeric value and
(possibly empty) unit suffix. -/
def parse_length_mm (m : Option (ℚ × String)) : Option ℚ :=
  match m with
  | none => none
  | some (val, u) =>
      let u := lowerStr u
      if u = "" ∨ u = "px" then none
      else if u = "mm" then some val
      else if u = "cm" then some (val * 10)
      else if u = "m" then some (val * 1000)
      else if u = "in" then some (val * (254 / 10))
      else if u = "pt" then some (val * ((254 / 10) / 72))
      else none

/-- `compute_svg_unit_to_meter` (`svg2ifc.py` lines 386-398).  `viewBox`
models the already-split numeric fields of the `viewBox` attribute;
`width` models the lexed `width` attribute as for `parse_length_mm`.
The trailing `* (1/10)` is the source's `* 0.1  # ALWAYS 1:100`. -/
def compute_svg_unit_to_meter (viewBox : Option (List ℚ)) (width : Option (ℚ × String)) : ℚ :=
  let vb_w : Option ℚ :=
    match viewBox with
    | some parts => if parts.length = 4 then parts.get? 2 else none
    | none => none
  let width_mm := parse_length_mm width
  let unit_to_mm : ℚ :=
    match width_mm, vb_w with
    | some wmm, some v => if 1 / 10 ^ 9 < v then wmm / v else 1
    | _, _ => 1
  unit_to_mm * (1 / 10)

/-- The pairing loop `[(nums[i], nums[i+1]) for i in range(0, len(nums), 2)]`:
on an odd-length list the final `nums[i+1]` raises `IndexError`. -/
def pairUp : List ℚ → Except String (List Point)
  | [] => .ok []
  | [_] => .error "IndexError"
  | a :: b :: t => (pairUp t).map (fun r => (a, b) :: r)

/-- `parse_points_attr` (`svg2ifc.py` lines 336-343) over the lexed number
tokens of a `points` attribute.  `.error` models an uncaught exception
(`float` failing on a token, or the odd-length `IndexError`); `.ok none`
is the source's `None` (fewer than three points). -/
def parse_points_attr (toF : String → Option ℚ) (toks : List String) : Except String (Option (List Point)) :=
  match mapOpt toF toks with
  | none => .error "ValueError"
  | some nums =>
      if nums.length < 6 then .ok none
      else
        match pairUp nums with
        | .error e => .error e
        | .ok pts =>
            match pts with
            | [] => .ok (some [])
            | p0 :: rest =>
                .ok (some (if (p0 :: rest).getLast? = some p0 then p0 :: rest else (p0 :: rest) ++ [p0]))

/-- `rect_to_poly` (`svg2ifc.py` lines 345-346). -/
def rect_to_poly (x y w h : ℚ) : List Point :=
  [(x, y), (x + w, y), (x + w, y + h), (x, y + h), (x, y)]

/-- `classify_fill` (`svg2ifc.py` lines 283-289) over the parsed RGB
triple (`parse_color`'s result; `none` for no/unparseable fill). -/
def classify_fill (rgb : Option (ℤ × ℤ × ℤ)) : Option String :=
  match rgb with
  | none => none
  | some (r, g, b) =>
      if r < 50 ∧ g < 50 ∧ b < 50 then some "wall"
      else if 180 < r ∧ g < 100 ∧ b < 100 then some "window"
      else if |r - g| < 25 ∧ |g - b| < 25 ∧ 80 < r ∧ r < 200 then some "door"
      else none

/-- The geometry-bearing attributes of one SVG node, lexed:
`rect` carries `x y width height` (source defaults of `0.0` applied),
`pts` carries the split `points` tokens of a `polygon`/`polyline`,
`path` and `other` carry no polygon (the source's path branch sets
`poly = None`). -/
inductive ShapeAttr where
  | rect (x y w h : ℚ)
  | pts (toks : List String)
  | path
  | other
deriving DecidableEq

/-- One node of the SVG tree: shape attributes, parsed fill colour
(`parse_color` result), lexed transform primitives, identifier
(`id`/inkscape label, `""` when absent), children. -/
inductive XNode where
  | mk (shape : ShapeAttr) (fill : Option (ℤ × ℤ × ℤ)) (tf : List Prim) (eid : String) (children : List XNode)

/-- A classified shape yielded by the walk: class, transformed polygon,
identifier. -/
abbrev Shp := String × List Point × String

/-- The per-node polygon extraction of `iter_floorplan_shapes`
(`svg2ifc.py` lines 363-375). -/
def shape_poly (toF : String → Option ℚ) : ShapeAttr → Except String (Option (List Point))
  | .rect x y w h => .ok (if 0 < w ∧ 0 < h then some (rect_to_poly x y w h) else none)
  | .pts toks => parse_points_attr toF toks
  | .path => .ok none
  | .other => .ok none

/-- The depth-first walk of `iter_floorplan_shapes` (`svg2ifc.py` lines
348-384), processed as a job queue: a node yields its own classified shape
first, then its children in order, then its right siblings — exactly the
source's pre-order generator.  Fuel bounds the number of processed nodes;
`.error "fuel"` cannot occur once fuel exceeds the tree size. -/
def walkShapes (toF : String → Option ℚ) (tr : TrigOps) : ℕ → List (Mat3 × XNode) → Except String (List Shp)
  | _, [] => .ok []
  | 0, _ :: _ => .error "fuel"
  | fuel + 1, (M, .mk sh fill tf eid cs) :: rest =>
      match parse_transform tr toF tf with
      | none => .error "ValueError"
      | some T =>
          let Mh := M * T
          match shape_poly toF sh with
          | .error e => .error e
          | .ok p? =>
              let own : List Shp :=
                match p?, classify_fill fill with
                | some poly, some c =>
                    if c = "wall" ∨ c = "window" ∨ c = "door" then [(c, apply_transform Mh poly, eid)] else []
                | _, _ => []
              (walkShapes toF tr fuel (cs.map (fun c => (Mh, c)) ++ rest)).map (fun r => own ++ r)

/-- `iter_floorplan_shapes` applied to a root node. -/
def iter_floorplan_shapes (toF : String → Option ℚ) (tr : TrigOps) (fuel : ℕ) (root : XNode) : Except String (List Shp) :=
  walkShapes toF tr fuel [(Mat3.id, root)]

/-! ## WallOpeningResolver geometry (`dist_point_to_segment`,
`closest_wall_edge`, host-wall selection in `build_hosted`)

Distances are carried *squared* (see the file header); `1e-12`, the
squared-edge-length degeneracy threshold `vv <= 1e-12`, is untouched
because `vv` is already a squared quantity in the source. -/

/-- `dist_point_to_segment` (`svg2ifc.py` lines 409-419), returning the
squared distance `hypot(..)^2` together with the clamped parameter `t`. -/
def dist_point_to_segment (p a b : Point) : ℚ × ℚ :=
  let vx := b.1 - a.1
  let vy := b.2 - a.2
  let wx := p.1 - a.1
  let wy := p.2 - a.2
  let vv := vx * vx + vy * vy
  if vv ≤ 1 / 10 ^ 12 then ((p.1 - a.1) ^ 2 + (p.2 - a.2) ^ 2, 0)
  else
    let t := max 0 (min 1 ((wx * vx + wy * vy) / vv))
    let cx := a.1 + t * vx
    let cy := a.2 + t * vy
    ((p.1 - cx) ^ 2 + (p.2 - cy) ^ 2, t)

/-- The strict-minimum scan `if d < best[0]: best = (d, payload)` shared
by `closest_wall_edge` and the host-wall loop of `build_hosted`. -/
def pick {α : Type} (b : ℚ × Option α) : List (ℚ × α) → ℚ × Option α
  | [] => b
  | p :: ps => pick (if p.1 < b.1 then (p.1, some p.2) else b) ps

/-- Consecutive vertex pairs `wall_poly[i], wall_poly[i+1]` for
`i in range(len(wall_poly)-1)`. -/
def adjPairs : List Point → List (Point × Point)
  | a :: b :: t => (a, b) :: adjPairs (b :: t)
  | _ => []

/-- Shoelace area of a closed polygon — this definition exists only to
*state* the spec's "zero area" condition (the source never computes an
area), so it is taken from the spec's words. -/
def polyArea (pts : List Point) : ℚ :=
  ((adjPairs pts).foldl (fun s e => s + (e.1.1 * e.2.2 - e.2.1 * e.1.2)) 0) / 2

/-- `closest_wall_edge` (`svg2ifc.py` lines 421-429).  The source's best
triple `(1e18, None, None)` — edge and `t` are `None` together — is
modelled as `(1e36, none)` over the squared distance, with the payload
holding the edge (as its two endpoints) and `t`. -/
def closest_wall_edge (poly : List Point) (p : Point) : ℚ × Option ((Point × Point) × ℚ) :=
  pick ((10 : ℚ) ^ 36, none)
    ((adjPairs poly).map (fun e => ((dist_point_to_segment p e.1 e.2).1, (e, (dist_point_to_segment p e.1 e.2).2))))

/-- A wall record as consulted by the host search (`rec["poly"]` plus an
identifying name standing for the rest of the record). -/
structure Wall where
  wname : String
  poly : List Point
deriving DecidableEq

/-- The host-wall loop of `build_hosted` (`svg2ifc.py` lines 1823-1834):
`best = (1e9, None, None)`, updated on strict decrease; the payload pairs
the winning wall with that wall's winning edge. -/
def select_host (walls : List Wall) (p : Point) : ℚ × Option (Wall × Option (Point × Point)) :=
  pick ((10 : ℚ) ^ 18, none)
    (walls.map (fun w =>
      ((closest_wall_edge w.poly p).1, (w, ((closest_wall_edge w.poly p).2).map Prod.fst))))

/-- `minList b l = min(b, min l)`: the value a strict-minimum scan with
initial sentinel `b` ends at. -/
def minList (b : ℚ) (l : List ℚ) : ℚ := l.foldl min b

/-- Squared distances from `p` to every edge of `poly`. -/
def edgeDists (p : Point) (poly : List Point) : List ℚ :=
  (adjPairs poly).map (fun e => (dist_point_to_segment p e.1 e.2).1)

/-- Minimal squared distance from `p` to a wall, with the per-wall scan's
sentinel. -/
def wallMin (p : Point) (w : Wall) : ℚ := minList ((10 : ℚ) ^ 36) (edgeDists p w.poly)

/-! ## Opening identifier parsing (`_norm`, `normalize_type_token`,
`parse_spec_from_eid`) -/

def WIN_TYPE_KEYS : List String :=
  ["double_horizontal", "double_vertical", "single", "triple_horizontal", "triple_vertical"]

def DEFAULT_WIN_TYPE : String := "single"

def DOOR_TYPE_KEYS : List String :=
  ["double_slide", "double_swing", "single_slide", "single_swing"]

def DEFAULT_DOOR_TYPE : String := "single_swing"

/-- `_norm` (`svg2ifc.py` lines 456-457). -/
def normTok (s : String) : String :=
  String.mk (((lowerStr s).data).filter alnumChar)

/-- `normalize_type_token` (`svg2ifc.py` lines 468-492). -/
def normalize_type_token (kind : String) (raw : String) : String :=
  let s := collapseBad (replaceStr (replaceStr (lowerStr (trimStr raw)) " " "_") "__" "_")
  if kind = "WINDOW" then
    if strContains s "triple" && strContains s "horizontal" then "triple_horizontal"
    else if strContains s "triple" && strContains s "vertical" then "triple_vertical"
    else if strContains s "double" && strContains s "horizontal" then "double_horizontal"
    else if strContains s "double" && strContains s "vertical" then "double_vertical"
    else if strContains s "single" then "single"
    else match WIN_TYPE_KEYS.find? (fun k => strContains (normTok s) (normTok k)) with
      | some k => k
      | none => DEFAULT_WIN_TYPE
  else if kind = "DOOR" then
    if strContains s "double" && strContains s "swing" then "double_swing"
    else if strContains s "double" && strContains s "slide" then "double_slide"
    else if strContains s "single" && strContains s "swing" then "single_swing"
    else if strContains s "single" && strContains s "slide" then "single_slide"
    else match DOOR_TYPE_KEYS.find? (fun k => strContains (normTok s) (normTok k)) with
      | some k => k
      | none => DEFAULT_DOOR_TYPE
  else s

/-- The numeric-token loop of `parse_spec_from_eid` (`svg2ifc.py` lines
518-523): `float` each token left to right, `break` on the first
failure. -/
def numsOf (toF : String → Option ℚ) : List String → List ℚ
  | [] => []
  | t :: ts =>
      match toF t with
      | some v => v :: numsOf toF ts
      | none => []

/-- The result tuple `(kind, type_token, width, sill, height)` of
`parse_spec_from_eid`. -/
structure SpecOut where
  kind : Option String
  type_token : Option String
  width : Option ℚ
  sill : Option ℚ
  height : Option ℚ
deriving DecidableEq

def noSpec : SpecOut := ⟨none, none, none, none, none⟩

/-- `s.strip()` then `s.split("-")` keeping truthy tokens (`svg2ifc.py`
lines 499-503). -/
def eidTokens (eid : String) : List String :=
  (splitStr '-' (trimStr eid)).filter (fun t => t ≠ "")

/-- `parse_spec_from_eid` (`svg2ifc.py` lines 494-534). -/
def parse_spec_from_eid (toF : String → Option ℚ) (eid : String) : SpecOut :=
  match eidTokens eid with
  | t0 :: t1 :: rest =>
      let head := lowerStr t0
      if strStarts head "w" then
        let nums := numsOf toF rest
        ⟨some "WINDOW", some (normalize_type_token "WINDOW" t1), nums.get? 0,
          some (nums.getD 1 (9 / 10)), some (nums.getD 2 (6 / 5))⟩
      else if strStarts head "d" then
        let nums := numsOf toF rest
        ⟨some "DOOR", some (normalize_type_token "DOOR" t1), nums.get? 0,
          some 0, some (nums.getD 1 (21 / 10))⟩
      else noSpec
  | _ => noSpec

/-! ## ParametricInstanceScaler
(`set_mapped_scale_and_center_ALL_REPS_KEEP_DEPTH`) -/

/-- The local bounding box returned by `bbox_local`. -/
structure BBox where
  mnx : ℚ
  mny : ℚ
  mnz : ℚ
  mxx : ℚ
  mxy : ℚ
  mxz : ℚ
deriving DecidableEq

/-- The non-uniform transformation operator written into every mapped
item: scales and the `LocalOrigin` coordinates of `make_3d_op`
(`svg2ifc.py` lines 593-601) — note the source's `LocalOrigin` is
`(ox, oy, 0.0)`. -/
structure ScaleOp where
  sx : ℚ
  sy : ℚ
  sz : ℚ
  ox : ℚ
  oy : ℚ
  oz : ℚ
deriving DecidableEq

/-- The scale/offset computation of
`set_mapped_scale_and_center_ALL_REPS_KEEP_DEPTH` (`svg2ifc.py` lines
565-601): `none` models the source's early `return None` when any extent
is below `1e-6` (the representation-walking part only copies this
operator into each mapped item and is outside the claims). -/
def set_mapped_scale_and_center_ALL_REPS_KEEP_DEPTH (b : BBox) (target_width target_height : ℚ) : Option ScaleOp :=
  let dx := b.mxx - b.mnx
  let dy := b.mxy - b.mny
  let dz := b.mxz - b.mnz
  if dx < 1 / 10 ^ 6 ∨ dy < 1 / 10 ^ 6 ∨ dz < 1 / 10 ^ 6 then none
  else
    let sx := target_width / dx
    let sy : ℚ := 1
    let sz := target_height / dz
    let cx := (b.mnx + b.mxx) / 2
    let cy := (b.mny + b.mxy) / 2
    some ⟨sx, sy, sz, -sx * cx, -sy * cy, 0⟩

/-- Action of an `IfcCartesianTransformationOperator3DnonUniform` with
axes aligned to the basis, modelled from the spec's words (the IFC
library applying the operator is an external collaborator): scale each
coordinate by its axis scale, then translate by the local origin. -/
def applyOp (op : ScaleOp) (p : ℚ × ℚ × ℚ) : ℚ × ℚ × ℚ :=
  (op.ox + op.sx * p.1, op.oy + op.sy * p.2.1, op.oz + op.sz * p.2.2)

def bboxCenter (b : BBox) : ℚ × ℚ × ℚ :=
  ((b.mnx + b.mxx) / 2, (b.mny + b.mxy) / 2, (b.mnz + b.mxz) / 2)

/-! ## PathFlattener (`_svg_path_tokenize` output, `_bezier_cubic`,
`_bezier_quad`, `_vector_angle`, `_arc_to_points`, `_path_to_polylines`) -/

def CURVE_SEGMENTS : ℕ := 32

/-- A token as produced by `_svg_path_tokenize`'s regex
`[MmLlHhVvCcQqAaZz]|-?\d*\.?\d+(...)`: a single letter or a number. -/
inductive PathTok where
  | c (ch : Char)
  | n (v : ℚ)
deriving DecidableEq

/-- Python `int(q)`: truncation toward zero. -/
def pyint (q : ℚ) : ℤ :=
  if 0 ≤ q then ⌊q⌋ else ⌈q⌉

/-- Python float `%` (used as `phi_deg % 360.0`): `a - b * floor(a / b)`. -/
def qmod (a b : ℚ) : ℚ := a - b * ⌊a / b⌋

/-- `_bezier_cubic` (`svg2ifc.py` lines 1266-1271). -/
def bezier_cubic (p0 p1 p2 p3 : Point) (t : ℚ) : Point :=
  let u := 1 - t
  (u * u * u * p0.1 + 3 * u * u * t * p1.1 + 3 * u * t * t * p2.1 + t * t * t * p3.1,
   u * u * u * p0.2 + 3 * u * u * t * p1.2 + 3 * u * t * t * p2.2 + t * t * t * p3.2)

/-- `_bezier_quad` (`svg2ifc.py` lines 1273-1278). -/
def bezier_quad (p0 p1 p2 : Point) (t : ℚ) : Point :=
  let u := 1 - t
  (u * u * p0.1 + 2 * u * t * p1.1 + t * t * p2.1,
   u * u * p0.2 + 2 * u * t * p1.2 + t * t * p2.2)

/-- `_vector_angle` (`svg2ifc.py` lines 1280-1283). -/
def vector_angle (tr : TrigOps) (ux uy vx vy : ℚ) : ℚ :=
  tr.atan2 (ux * vy - uy * vx) (ux * vx + uy * vy)

/-- `_arc_to_points` (`svg2ifc.py` lines 1285-1337): endpoint-to-center
arc parameterization, radii correction, sampling. -/
def arc_to_points (tr : TrigOps) (x1 y1 x2 y2 rx0 ry0 phi_deg : ℚ) (large_arc sweep : ℤ) (segments : ℕ) : List Point :=
  if rx0 = 0 ∨ ry0 = 0 then [(x2, y2)]
  else
    let rx := |rx0|
    let ry := |ry0|
    let phi := degToRad tr (qmod phi_deg 360)
    let cosphi := tr.cos phi
    let sinphi := tr.sin phi
    let dx := (x1 - x2) / 2
    let dy := (y1 - y2) / 2
    let x1p := cosphi * dx + sinphi * dy
    let y1p := -sinphi * dx + cosphi * dy
    let lam := x1p * x1p / (rx * rx) + y1p * y1p / (ry * ry)
    let s := if 1 < lam then tr.sqrt lam else 1
    let rx := rx * s
    let ry := ry * s
    let num := rx * rx * (ry * ry) - rx * rx * (y1p * y1p) - ry * ry * (x1p * x1p)
    let den := rx * rx * (y1p * y1p) + ry * ry * (x1p * x1p)
    if den = 0 then [(x2, y2)]
    else
      let c0 := tr.sqrt (max 0 (num / den))
      let c := if (decide (large_arc ≠ 0)) = (decide (sweep ≠ 0)) then -c0 else c0
      let cxp := c * (rx * y1p) / ry
      let cyp := c * (-ry * x1p) / rx
      let cx := cosphi * cxp - sinphi * cyp + (x1 + x2) / 2
      let cy := sinphi * cxp + cosphi * cyp + (y1 + y2) / 2
      let ux := (x1p - cxp) / rx
      let uy := (y1p - cyp) / ry
      let vx := (-x1p - cxp) / rx
      let vy := (-y1p - cyp) / ry
      let theta1 := vector_angle tr 1 0 ux uy
      let dtheta0 := vector_angle tr ux uy vx vy
      let dtheta :=
        if sweep = 0 ∧ 0 < dtheta0 then dtheta0 - 2 * tr.pi
        else if sweep ≠ 0 ∧ dtheta0 < 0 then dtheta0 + 2 * tr.pi
        else dtheta0
      (List.range segments).map (fun k =>
        let t := ((k : ℚ) + 1) / (segments : ℚ)
        let ang := theta1 + dtheta * t
        (cx + rx * tr.cos phi * tr.cos ang - ry * tr.sin phi * tr.sin ang,
         cy + rx * tr.sin phi * tr.cos ang + ry * tr.cos phi * tr.sin ang))

/-- Read `k` numeric tokens (`num()` calls); a command letter in place of
a number is `float(...)` raising `ValueError`, running out of tokens is
`IndexError` — both `none`. -/
def takeNums : ℕ → List PathTok → Option (List ℚ × List PathTok)
  | 0, l => some ([], l)
  | _ + 1, [] => none
  | k + 1, t :: ts =>
      match t with
      | .n v => (takeNums k ts).map (fun r => (v :: r.1, r.2))
      | .c _ => none

/-- The mutable loop state of `_path_to_polylines`: pending command,
current point, subpath start, current polyline, finished polylines. -/
structure FlatState where
  cmd : Option Char
  x : ℚ
  y : ℚ
  sx : ℚ
  sy : ℚ
  cur : List Point
  polys : List (List Point)
deriving DecidableEq

def isPathCmdChar (ch : Char) : Bool :=
  ("MmLlHhVvCcQqAaZz".data).contains ch

/-- The `Zz` handling shared by both occurrences in the source (lines
1360-1365 and 1451-1456). -/
def closeSub (st : FlatState) : FlatState :=
  { st with
    cur := [],
    polys := if st.cur ≠ [] then st.polys ++ [st.cur ++ [(st.sx, st.sy)]] else st.polys,
    x := st.sx, y := st.sy }

/-- Bezier sample points `for k in range(1, CURVE_SEGMENTS + 1)`. -/
def curveSamples (f : ℚ → Point) : List Point :=
  (List.range CURVE_SEGMENTS).map (fun k => f (((k : ℚ) + 1) / (CURVE_SEGMENTS : ℚ)))

/-- The final flush `if cur: polys.append(cur)` (`svg2ifc.py` lines
1461-1462). -/
def flushCur (st : FlatState) : List (List Point) :=
  if st.cur ≠ [] then st.polys ++ [st.cur] else st.polys

/-- Outcome of one iteration of the `while` loop: normal termination
(`break` or end of tokens), an uncaught exception, or another iteration
with new position and state. -/
inductive StepRes where
  | done (r : List (List Point))
  | fail
  | next (toks : List PathTok) (st : FlatState)

/-- One iteration of the `while` loop of `_path_to_polylines`
(`svg2ifc.py` lines 1355-1459): command-letter recognition first, then
dispatch on the pending command with the stream positioned at the first
operand.  Note the `Zz` dispatch branch (lines 1451-1456) does not
consume a token — the source loop genuinely does not advance `i` there. -/
def flattenStep (tr : TrigOps) : List PathTok → FlatState → StepRes
  | [], st => .done (flushCur st)
  | t :: rest, st =>
      let toks := t :: rest
      let isCmdTok := match t with
        | .c ch => isPathCmdChar ch
        | .n _ => false
      if isCmdTok then
        match t with
        | .c ch =>
            if ch = 'Z' ∨ ch = 'z' then .next rest { closeSub st with cmd := some ch }
            else .next rest { st with cmd := some ch }
        | .n _ => .fail
      else
        match st.cmd with
        | none => .done (flushCur st)
        | some c =>
            if c = 'M' ∨ c = 'm' then
              match takeNums 2 toks with
              | none => .fail
              | some (vs, rest') =>
                  let nx := vs.getD 0 0
                  let ny := vs.getD 1 0
                  let x := if c = 'm' then st.x + nx else nx
                  let y := if c = 'm' then st.y + ny else ny
                  .next rest'
                    { cmd := some (if c = 'M' then 'L' else 'l'), x := x, y := y, sx := x, sy := y,
                      cur := [(x, y)],
                      polys := if st.cur ≠ [] then st.polys ++ [st.cur] else st.polys }
            else if c = 'L' ∨ c = 'l' then
              match takeNums 2 toks with
              | none => .fail
              | some (vs, rest') =>
                  let nx := vs.getD 0 0
                  let ny := vs.getD 1 0
                  let x := if c = 'l' then st.x + nx else nx
                  let y := if c = 'l' then st.y + ny else ny
                  .next rest' { st with x := x, y := y, cur := st.cur ++ [(x, y)] }
            else if c = 'H' ∨ c = 'h' then
              match takeNums 1 toks with
              | none => .fail
              | some (vs, rest') =>
                  let nx := vs.getD 0 0
                  let x := if c = 'h' then st.x + nx else nx
                  .next rest' { st with x := x, cur := st.cur ++ [(x, st.y)] }
            else if c = 'V' ∨ c = 'v' then
              match takeNums 1 toks with
              | none => .fail
              | some (vs, rest') =>
                  let ny := vs.getD 0 0
                  let y := if c = 'v' then st.y + ny else ny
                  .next rest' { st with y := y, cur := st.cur ++ [(st.x, y)] }
            else if c = 'C' ∨ c = 'c' then
              match takeNums 6 toks with
              | none => .fail
              | some (vs, rest') =>
                  let p0 : Point := (st.x, st.y)
                  let p1 : Point := if c = 'c' then (st.x + vs.getD 0 0, st.y + vs.getD 1 0) else (vs.getD 0 0, vs.getD 1 0)
                  let p2 : Point := if c = 'c' then (st.x + vs.getD 2 0, st.y + vs.getD 3 0) else (vs.getD 2 0, vs.getD 3 0)
                  let p3 : Point := if c = 'c' then (st.x + vs.getD 4 0, st.y + vs.getD 5 0) else (vs.getD 4 0, vs.getD 5 0)
                  .next rest'
                    { st with
                      x := (p3.1),
                      y := (p3.2),
                      cur := st.cur ++ curveSamples (bezier_cubic p0 p1 p2 p3) }
            else if c = 'Q' ∨ c = 'q' then
              match takeNums 4 toks with
              | none => .fail
              | some (vs, rest') =>
                  let p0 : Point := (st.x, st.y)
                  let p1 : Point := if c = 'q' then (st.x + vs.getD 0 0, st.y + vs.getD 1 0) else (vs.getD 0 0, vs.getD 1 0)
                  let p2 : Point := if c = 'q' then (st.x + vs.getD 2 0, st.y + vs.getD 3 0) else (vs.getD 2 0, vs.getD 3 0)
                  .next rest'
                    { st with
                      x := (p2.1),
                      y := (p2.2),
                      cur := st.cur ++ curveSamples (bezier_quad p0 p1 p2) }
            else if c = 'A' ∨ c = 'a' then
              match takeNums 7 toks with
              | none => .fail
              | some (vs, rest') =>
                  let rx := vs.getD 0 0
                  let ry := vs.getD 1 0
                  let phi := vs.getD 2 0
                  let large_arc := pyint (vs.getD 3 0)
                  let sweep := pyint (vs.getD 4 0)
                  let x2 := (if c = 'a' then st.x else 0) + vs.getD 5 0
                  let y2 := (if c = 'a' then st.y else 0) + vs.getD 6 0
                  let pts := arc_to_points tr st.x st.y x2 y2 rx ry phi large_arc sweep CURVE_SEGMENTS
                  .next rest' { st with x := x2, y := y2, cur := st.cur ++ pts }
            else if c = 'Z' ∨ c = 'z' then
              .next toks (closeSub st)
            else
              .done (flushCur st)

/-- The `while` loop driven to completion.  `none` models an uncaught
exception *or* divergence (a numeric token under a pending `Z` command,
e.g. `M 0 0 Z 5`, never advances); fuel `length + 1` is enough for every
terminating source run since every other iteration consumes a token. -/
def flattenLoop (tr : TrigOps) : ℕ → List PathTok → FlatState → Option (List (List Point))
  | 0, _, _ => none
  | fuel + 1, toks, st =>
      match flattenStep tr toks st with
      | .done r => some r
      | .fail => none
      | .next toks' st' => flattenLoop tr fuel toks' st'

/-- `_path_to_polylines` (`svg2ifc.py` lines 1339-1463) over the lexed
token list (`if not toks: return []`, then the loop). -/
def path_to_polylines (tr : TrigOps) (toks : List PathTok) : Option (List (List Point)) :=
  match toks with
  | [] => some []
  | _ =>
      flattenLoop tr (toks.length + 1) toks
        { cmd := none, x := 0, y := 0, sx := 0, sy := 0, cur := [], polys := [] }

/-! ## MultiFloorAssembler (`stack_ifc.py`, `merge_ifc_files`) -/

/-- An entity of a source floor file as the merge sees it: its IFC class
and optional `Name`. -/
structure IfcProduct where
  cls : String
  pname : Option String
deriving DecidableEq

/-- `product_types` (`stack_ifc.py` lines 105-111). -/
def product_types : List String :=
  ["IfcWall", "IfcWallStandardCase", "IfcSlab", "IfcBeam", "IfcColumn",
   "IfcDoor", "IfcWindow", "IfcCurtainWall", "IfcStair", "IfcRailing",
   "IfcRoof", "IfcCovering", "IfcFurniture", "IfcBuildingElementProxy",
   "IfcPlate", "IfcMember", "IfcFooting", "IfcFlowTerminal",
   "IfcOpeningElement"]

/-- The `by_type` gathering loop (`stack_ifc.py` lines 113-118), with
`by_type` modelled as exact-class lookup in the source file's entity
list. -/
def collect_products (ents : List IfcProduct) : List IfcProduct :=
  product_types.foldl (fun acc t => acc ++ ents.filter (fun p => p.cls = t)) []

/-- One floor input: placement fields (`elevation`, `tx`, `ty`, `rot`,
with the dict-lookup defaults already applied) and the entities of the
loaded source file. -/
structure FloorData where
  elevation : ℚ
  tx : ℚ
  ty : ℚ
  rot : ℚ
  entities : List IfcProduct
deriving DecidableEq

/-- The storey placement matrix (`stack_ifc.py` lines 77-89):
`T = translate(tx, ty, elevation)`, postmultiplied by the Z-rotation
when `rot != 0`. -/
def storey_placement (tr : TrigOps) (tx ty elev rot : ℚ) : Matrix (Fin 4) (Fin 4) ℚ :=
  let T : Matrix (Fin 4) (Fin 4) ℚ :=
    Matrix.of ![![1, 0, 0, tx], ![0, 1, 0, ty], ![0, 0, 1, elev], ![0, 0, 0, 1]]
  if rot ≠ 0 then
    let c := tr.cos rot
    let s := tr.sin rot
    T * Matrix.of ![![c, -s, 0, 0], ![s, c, 0, 0], ![0, 0, 1, 0], ![0, 0, 0, 1]]
  else T

/-- The copy loop (`stack_ifc.py` lines 123-139).  `copyOk` is the oracle
for the external `root.create_entity`/`spatial.assign_container` attempt
succeeding on a product; a failing product is skipped and does not bump
`copied_count`.  The fallback name mirrors
`product.Name or f"..._{i}_{copied_count}"` (Python `or` treats an empty
name as falsy). -/
def copy_loop (copyOk : IfcProduct → Bool) (i : ℕ) : List IfcProduct → ℕ → List IfcProduct
  | [], _ => []
  | p :: ps, cnt =>
      if copyOk p then
        let fallback := p.cls ++ "_" ++ toString i ++ "_" ++ toString cnt
        let nm := match p.pname with
          | some n => if n = "" then fallback else n
          | none => fallback
        ⟨p.cls, some nm⟩ :: copy_loop copyOk i ps (cnt + 1)
      else copy_loop copyOk i ps cnt

/-- One storey of the merged file: name, `storey.Elevation`, placement,
successfully copied elements. -/
structure StoreyOut where
  sname : String
  elevation : ℚ
  placement : Matrix (Fin 4) (Fin 4) ℚ
  copied : List IfcProduct

/-- Result of `merge_ifc_files`: the single-floor case returns the source
floor itself; the multi-floor case returns the new building's storeys. -/
inductive MergeOut where
  | single (fd : FloorData)
  | merged (storeys : List StoreyOut)

/-- The per-floor storey construction of the merge loop (`stack_ifc.py`
lines 60-141): storey named `Floor_i`, `Elevation` set, placement
transform applied, supported products copied. -/
def mkStorey (tr : TrigOps) (copyOk : IfcProduct → Bool) (q : ℕ × FloorData) : StoreyOut :=
  { sname := "Floor_" ++ toString q.1,
    elevation := q.2.elevation,
    placement := storey_placement tr q.2.tx q.2.ty q.2.elevation q.2.rot,
    copied := copy_loop copyOk q.1 (collect_products q.2.entities) 0 }

/-- `merge_ifc_files` (`stack_ifc.py` lines 14-154): `ValueError` on an
empty input, pass-through for a single floor, otherwise one storey per
floor in input order. -/
def merge_ifc_files (tr : TrigOps) (copyOk : IfcProduct → Bool) (floors : List FloorData) : Except String MergeOut :=
  match floors with
  | [] => .error "No floors to merge"
  | [fd] => .ok (.single fd)
  | _ => .ok (.merged (floors.enum.map (mkStorey tr copyOk)))

def merged_storeys : MergeOut → Option (List StoreyOut)
  | .merged s => some s
  | .single _ => none

/-! # Theorems

General lemmas about the strict-minimum scan, then one theorem (plus
witness / counterexample where required) per specification claim. -/

theorem minList_cons (b v : ℚ) (l : List ℚ) : minList b (v :: l) = minList (min b v) l := rfl

theorem minList_le (l : List ℚ) : ∀ b : ℚ, minList b l ≤ b := by
  induction l with
  | nil => intro b; exact le_refl b
  | cons v t ih =>
      intro b
      calc minList b (v :: t) = minList (min b v) t := rfl
        _ ≤ min b v := ih (min b v)
        _ ≤ b := min_le_left b v

theorem minList_comm (l : List ℚ) : ∀ b c : ℚ, minList (min b c) l = min b (minList c l) := by
  induction l with
  | nil => intro b c; rfl
  | cons v t ih =>
      intro b c
      calc minList (min b c) (v :: t) = minList (min (min b c) v) t := rfl
        _ = minList (min b (min c v)) t := by rw [min_assoc]
        _ = min b (minList (min c v) t) := ih b (min c v)
        _ = min b (minList c (v :: t)) := rfl

theorem minList_append (b : ℚ) (l1 l2 : List ℚ) :
    minList b (l1 ++ l2) = minList (minList b l1) l2 := by
  simp [minList, List.foldl_append]

theorem pick_fst {α : Type} (l : List (ℚ × α)) : ∀ (b : ℚ) (x : Option α),
    (pick (b, x) l).1 = minList b (l.map Prod.fst) := by
  induction l with
  | nil => intro b x; rfl
  | cons p t ih =>
      intro b x
      by_cases h : p.1 < b
      · have : pick (b, x) (p :: t) = pick (p.1, some p.2) t := by
          simp [pick, h]
        rw [this, ih]
        have hmin : min b p.1 = p.1 := min_eq_right (le_of_lt h)
        simp [minList_cons, hmin]
      · have : pick (b, x) (p :: t) = pick (b, x) t := by
          simp [pick, h]
        rw [this, ih]
        have hmin : min b p.1 = b := min_eq_left (le_of_not_lt h)
        simp [minList_cons, hmin]

theorem pick_stay {α : Type} (l : List (ℚ × α)) : ∀ (b : ℚ) (x : Option α),
    ¬ minList b (l.map Prod.fst) < b → pick (b, x) l = (b, x) := by
  induction l with
  | nil => intro b x _; rfl
  | cons p t ih =>
      intro b x h
      have hple : ¬ p.1 < b := by
        intro hp
        apply h
        have h1 : minList b ((p :: t).map Prod.fst) = minList (min b p.1) (t.map Prod.fst) := rfl
        have h2 : minList (min b p.1) (t.map Prod.fst) ≤ min b p.1 := minList_le _ _
        have h3 : min b p.1 = p.1 := min_eq_right (le_of_lt hp)
        rw [h1]
        calc minList (min b p.1) (t.map Prod.fst) ≤ min b p.1 := h2
          _ = p.1 := h3
          _ < b := hp
      have hstep : pick (b, x) (p :: t) = pick (b, x) t := by simp [pick, hple]
      rw [hstep]
      apply ih
      intro hlt
      apply h
      have hbp : min b p.1 = b := min_eq_left (le_of_not_lt hple)
      calc minList b ((p :: t).map Prod.fst) = minList (min b p.1) (t.map Prod.fst) := rfl
        _ = minList b (t.map Prod.fst) := by rw [hbp]
        _ < b := hlt

theorem pick_snd {α : Type} (l : List (ℚ × α)) : ∀ (b : ℚ) (x : Option α),
    minList b (l.map Prod.fst) < b →
    (pick (b, x) l).2 =
      (l.find? (fun q => q.1 = minList b (l.map Prod.fst))).map Prod.snd := by
  induction l with
  | nil => intro b x h; exact absurd h (lt_irrefl b)
  | cons p t ih =>
      intro b x h
      have hcons : minList b ((p :: t).map Prod.fst) = minList (min b p.1) (t.map Prod.fst) := rfl
      by_cases hp : p.1 < b
      · have hmin : min b p.1 = p.1 := min_eq_right (le_of_lt hp)
        have hm : minList b ((p :: t).map Prod.fst) = minList p.1 (t.map Prod.fst) := by
          rw [hcons, hmin]
        have hstep : pick (b, x) (p :: t) = pick (p.1, some p.2) t := by simp [pick, hp]
        by_cases ht : minList p.1 (t.map Prod.fst) < p.1
        · have hne : ¬ (p.1 = minList b ((p :: t).map Prod.fst)) := by
            rw [hm]; exact ne_of_gt ht
          rw [hstep, List.find?_cons_of_neg _ (by simpa using hne), ih p.1 (some p.2) ht, hm]
        · have heq : minList b ((p :: t).map Prod.fst) = p.1 := by
            rw [hm]
            exact le_antisymm (minList_le _ _) (le_of_not_lt ht)
          rw [hstep, pick_stay t p.1 (some p.2) ht]
          rw [List.find?_cons_of_pos _ (by simpa using heq.symm)]
          simp
      · have hmin : min b p.1 = b := min_eq_left (le_of_not_lt hp)
        have hm : minList b ((p :: t).map Prod.fst) = minList b (t.map Prod.fst) := by
          rw [hcons, hmin]
        have hstep : pick (b, x) (p :: t) = pick (b, x) t := by simp [pick, hp]
        have hlt : minList b (t.map Prod.fst) < b := by rw [hm] at h; exact h
        have hne : ¬ (p.1 = minList b ((p :: t).map Prod.fst)) := by
          rw [hm]
          intro hcontra
          exact hp (hcontra ▸ hlt)
        rw [hstep, List.find?_cons_of_neg _ (by simpa using hne), ih b x hlt, hm]

theorem pick_snd_mem {α : Type} (l : List (ℚ × α)) : ∀ (b : ℚ) (x : Option α) (a : α),
    (pick (b, x) l).2 = some a → x = some a ∨ a ∈ l.map Prod.snd := by
  induction l with
  | nil => intro b x a h; exact Or.inl h
  | cons p t ih =>
      intro b x a h
      by_cases hp : p.1 < b
      · have hstep : pick (b, x) (p :: t) = pick (p.1, some p.2) t := by simp [pick, hp]
        rw [hstep] at h
        rcases ih p.1 (some p.2) a h with h1 | h2
        · exact Or.inr (by simp [Option.some_inj.mp h1])
        · exact Or.inr (List.mem_cons_of_mem _ h2)
      · have hstep : pick (b, x) (p :: t) = pick (b, x) t := by simp [pick, hp]
        rw [hstep] at h
        rcases ih b x a h with h1 | h2
        · exact Or.inl h1
        · exact Or.inr (List.mem_cons_of_mem _ h2)

/-- C1 (as amended).  Under the source's own non-degeneracy guard
(every bounding-box extent at least `1e-6`) and positive targets, the
scaler fixes the depth scale at exactly `1.0`, sets
`scale_x = target_width / dx` and `scale_z = target_height / dz`, but
recenters only the x axis and the *unscaled* depth axis: the operator's
local origin is `(-sx*cx, -cy, 0)`, so the transformed bounding-box
center lands on the origin in x and y while its z coordinate is
`scale_z * cz`, not `0`. -/
theorem C1_scaler_keeps_depth_and_centers_xy (b : BBox) (tw th : ℚ)
    (htw : 0 < tw) (hth : 0 < th)
    (hdx : 1 / 10 ^ 6 ≤ b.mxx - b.mnx) (hdy : 1 / 10 ^ 6 ≤ b.mxy - b.mny)
    (hdz : 1 / 10 ^ 6 ≤ b.mxz - b.mnz) :
    set_mapped_scale_and_center_ALL_REPS_KEEP_DEPTH b tw th =
      some ⟨tw / (b.mxx - b.mnx), 1, th / (b.mxz - b.mnz),
            -(tw / (b.mxx - b.mnx)) * ((b.mnx + b.mxx) / 2), -((b.mny + b.mxy) / 2), 0⟩
    ∧ applyOp ⟨tw / (b.mxx - b.mnx), 1, th / (b.mxz - b.mnz),
            -(tw / (b.mxx - b.mnx)) * ((b.mnx + b.mxx) / 2), -((b.mny + b.mxy) / 2), 0⟩
        (bboxCenter b)
        = (0, 0, th / (b.mxz - b.mnz) * ((b.mnz + b.mxz) / 2)) := by
  constructor
  · unfold set_mapped_scale_and_center_ALL_REPS_KEEP_DEPTH
    rw [if_neg]
    · norm_num
    · push_neg
      exact ⟨by linarith, by linarith, by linarith⟩
  · unfold applyOp bboxCenter
    simp only [Prod.mk.injEq]
    refine ⟨by ring, by ring, by ring⟩

/-- C1 witness: a concrete box and targets satisfying every hypothesis. -/
theorem C1_witness :
    set_mapped_scale_and_center_ALL_REPS_KEEP_DEPTH ⟨0, 0, 0, 2, 1, 3⟩ 2 6 =
      some ⟨2 / (2 - 0), 1, 6 / (3 - 0), -(2 / (2 - 0)) * ((0 + 2) / 2), -((0 + 1) / 2), 0⟩
    ∧ applyOp ⟨2 / (2 - 0), 1, 6 / (3 - 0), -(2 / (2 - 0)) * ((0 + 2) / 2), -((0 + 1) / 2), 0⟩
        (bboxCenter ⟨0, 0, 0, 2, 1, 3⟩)
        = (0, 0, 6 / (3 - 0) * ((0 + 3) / 2)) :=
  C1_scaler_keeps_depth_and_centers_xy ⟨0, 0, 0, 2, 1, 3⟩ 2 6 (by norm_num) (by norm_num)
    (by norm_num) (by norm_num) (by norm_num)

/-- C1 counterexample to the claim as stated: for the box
`[0,2]×[0,1]×[1,2]` with targets `(2,1)` the scaler succeeds, yet the
transformed bounding-box center is `(0, 0, 3/2)`, not the origin — the z
axis is scaled but never recentered. -/
theorem C1_counterexample :
    set_mapped_scale_and_center_ALL_REPS_KEEP_DEPTH ⟨0, 0, 1, 2, 1, 2⟩ 2 1 =
      some ⟨1, 1, 1, -1, -(1 / 2), 0⟩
    ∧ applyOp ⟨1, 1, 1, -1, -(1 / 2), 0⟩ (bboxCenter ⟨0, 0, 1, 2, 1, 2⟩) ≠ (0, 0, 0) := by
  constructor
  · unfold set_mapped_scale_and_center_ALL_REPS_KEEP_DEPTH
    norm_num
  · intro heq
    have h3 := congrArg (fun q : ℚ × ℚ × ℚ => q.2.2) heq
    norm_num [applyOp, bboxCenter] at h3

/-- C2 (as amended).  For a declared width in a recognized physical unit
(value `pmm` in millimetres after unit conversion) and a viewBox width
`V` above the source's `1e-9` guard, the *returned* scale times `V` is
`pmm * 0.1`: the unit-ratio factor reproduces the physical width exactly,
and the result always carries the additional fixed `0.1` constant
(`# ALWAYS 1:100`). -/
theorem C2_unit_round_trip (val : ℚ) (u : String) (pmm : ℚ) (x0 y0 h0 v : ℚ)
    (hw : parse_length_mm (some (val, u)) = some pmm) (hv : 1 / 10 ^ 9 < v) :
    compute_svg_unit_to_meter (some [x0, y0, v, h0]) (some (val, u)) * v = pmm * (1 / 10) := by
  have hvne : v ≠ 0 := ne_of_gt (lt_trans (by positivity) hv)
  unfold compute_svg_unit_to_meter
  rw [hw]
  show (if 1 / 10 ^ 9 < v then pmm / v else 1) * (1 / 10) * v = pmm * (1 / 10)
  rw [if_pos hv]
  field_simp
  ring

/-- C2 witness: declared width `100mm`, viewBox width `50`. -/
theorem C2_witness :
    compute_svg_unit_to_meter (some [0, 0, 50, 50]) (some (100, "mm")) * 50 = 100 * (1 / 10) :=
  C2_unit_round_trip 100 "mm" 100 0 0 50 50 (by decide) (by norm_num)

/-- C2 counterexample to the claim as stated: with declared physical
width `100mm` and viewBox width `50`, the computed scale times `50` is
`10`, not `100` — the returned scale always includes the fixed `0.1`
constant on top of the unit ratio. -/
theorem C2_counterexample :
    parse_length_mm (some (100, "mm")) = some 100
    ∧ (0 : ℚ) < 50
    ∧ compute_svg_unit_to_meter (some [0, 0, 50, 50]) (some (100, "mm")) * 50 ≠ 100 := by
  refine ⟨by decide, by norm_num, ?_⟩
  have h1 : parse_length_mm (some ((100 : ℚ), "mm")) = some 100 := by decide
  unfold compute_svg_unit_to_meter
  rw [h1]
  show ¬ ((if (1 : ℚ) / 10 ^ 9 < 50 then (100 : ℚ) / 50 else 1) * (1 / 10) * 50 = 100)
  rw [if_pos (by norm_num : (1 : ℚ) / 10 ^ 9 < 50)]
  norm_num

/-- C8 (as amended).  `closest_wall_edge` only ever returns an edge that
is one of the polygon's consecutive-vertex pairs, so whenever the input
polygon has no two equal consecutive vertices — the condition the claim's
"≥ 3 distinct points" fails to guarantee — the selected host edge has
distinct endpoints.  The closure and distinct-point hypotheses of the
original claim are kept alongside. -/
theorem C8_no_degenerate_host_edge (poly : List Point) (p : Point) (e : Point × Point) (t : ℚ)
    (hclosed : poly.head? = poly.getLast?)
    (hdistinct : 3 ≤ poly.toFinset.card)
    (hconsec : ∀ q ∈ adjPairs poly, q.1 ≠ q.2)
    (hsel : (closest_wall_edge poly p).2 = some (e, t)) :
    e.1 ≠ e.2 := by
  unfold closest_wall_edge at hsel
  rcases pick_snd_mem _ _ _ _ hsel with h1 | h2
  · exact absurd h1 (by simp)
  · simp only [List.map_map, List.mem_map, Function.comp] at h2
    obtain ⟨q, hq, heq⟩ := h2
    have hqe : q = e := congrArg Prod.fst heq
    exact hqe ▸ hconsec q hq

/-- C8 witness: a plain rectangle wall (first = last vertex, four
distinct points, no repeated consecutive vertices); the selected host
edge for the centroid `(2,2)` is the top edge, which is not
degenerate. -/
theorem C8_witness :
    (closest_wall_edge [((0 : ℚ), (0 : ℚ)), (4, 0), (4, 1), (0, 1), (0, 0)] (2, 2)).2
        = some ((((4 : ℚ), (1 : ℚ)), ((0 : ℚ), (1 : ℚ))), 1 / 2)
    ∧ (((4 : ℚ), (1 : ℚ)) : Point) ≠ ((0 : ℚ), (1 : ℚ)) := by
  have hsel : (closest_wall_edge [((0 : ℚ), (0 : ℚ)), (4, 0), (4, 1), (0, 1), (0, 0)] (2, 2)).2
      = some ((((4 : ℚ), (1 : ℚ)), ((0 : ℚ), (1 : ℚ))), 1 / 2) := by
    norm_num [closest_wall_edge, adjPairs, dist_point_to_segment, pick]
  exact ⟨hsel,
    C8_no_degenerate_host_edge [((0 : ℚ), (0 : ℚ)), (4, 0), (4, 1), (0, 1), (0, 0)] (2, 2)
      (((4 : ℚ), (1 : ℚ)), ((0 : ℚ), (1 : ℚ))) (1 / 2) (by decide) (by decide) (by decide) hsel⟩

/-- C8 counterexample to the claim as stated: the polygon
`[(0,0),(0,0),(1,0),(0,1),(0,0)]` has first = last vertex and three
distinct points, yet for the centroid `(0,0)` the resolver selects the
zero-length edge `(0,0)–(0,0)` (its squared distance `0` is scanned
first and later ties do not replace it). -/
theorem C8_counterexample :
    ([((0 : ℚ), (0 : ℚ)), (0, 0), (1, 0), (0, 1), (0, 0)] : List Point).head?
        = ([((0 : ℚ), (0 : ℚ)), (0, 0), (1, 0), (0, 1), (0, 0)] : List Point).getLast?
    ∧ 3 ≤ ([((0 : ℚ), (0 : ℚ)), (0, 0), (1, 0), (0, 1), (0, 0)] : List Point).toFinset.card
    ∧ (closest_wall_edge [((0 : ℚ), (0 : ℚ)), (0, 0), (1, 0), (0, 1), (0, 0)] (0, 0)).2
        = some ((((0 : ℚ), (0 : ℚ)), ((0 : ℚ), (0 : ℚ))), 0) := by
  refine ⟨by decide, by decide, ?_⟩
  norm_num [closest_wall_edge, adjPairs, dist_point_to_segment, pick]

theorem closest_fst (poly : List Point) (p : Point) :
    (closest_wall_edge poly p).1 = minList ((10 : ℚ) ^ 36) (edgeDists p poly) := by
  unfold closest_wall_edge
  rw [pick_fst]
  congr 1
  simp [edgeDists, List.map_map, Function.comp]

theorem closest_snd (poly : List Point) (p : Point)
    (h : minList ((10 : ℚ) ^ 36) (edgeDists p poly) < (10 : ℚ) ^ 36) :
    ((closest_wall_edge poly p).2).map Prod.fst
      = (adjPairs poly).find? (fun e =>
          (dist_point_to_segment p e.1 e.2).1 = minList ((10 : ℚ) ^ 36) (edgeDists p poly)) := by
  unfold closest_wall_edge
  have hL : (((adjPairs poly).map (fun e =>
      ((dist_point_to_segment p e.1 e.2).1, (e, (dist_point_to_segment p e.1 e.2).2)))).map Prod.fst)
      = edgeDists p poly := by
    simp [edgeDists, List.map_map, Function.comp]
  rw [pick_snd _ _ _ (by rw [hL]; exact h), hL, List.find?_map]
  have hpredeq : ((fun q : ℚ × ((Point × Point) × ℚ) =>
        decide (q.1 = minList ((10 : ℚ) ^ 36) (edgeDists p poly))) ∘
      (fun e : Point × Point =>
        ((dist_point_to_segment p e.1 e.2).1, (e, (dist_point_to_segment p e.1 e.2).2))))
      = fun e : Point × Point =>
        decide ((dist_point_to_segment p e.1 e.2).1 = minList ((10 : ℚ) ^ 36) (edgeDists p poly)) := rfl
  rw [hpredeq]
  cases hfind : (adjPairs poly).find? (fun e : Point × Point =>
      decide ((dist_point_to_segment p e.1 e.2).1 = minList ((10 : ℚ) ^ 36) (edgeDists p poly))) with
  | none => rfl
  | some e => rfl

theorem minList_nested (p : Point) (walls : List Wall) : ∀ b : ℚ, b ≤ (10 : ℚ) ^ 36 →
    minList b (walls.map (wallMin p)) = minList b (walls.flatMap (fun w => edgeDists p w.poly)) := by
  induction walls with
  | nil => intro b _; rfl
  | cons w ws ih =>
      intro b hb
      have hcb : min b ((10 : ℚ) ^ 36) = b := min_eq_left hb
      have hws : min b (wallMin p w) = minList b (edgeDists p w.poly) := by
        unfold wallMin
        rw [← minList_comm, hcb]
      calc minList b ((w :: ws).map (wallMin p))
          = minList (min b (wallMin p w)) (ws.map (wallMin p)) := rfl
        _ = minList (minList b (edgeDists p w.poly)) (ws.map (wallMin p)) := by rw [hws]
        _ = minList (minList b (edgeDists p w.poly)) (ws.flatMap (fun w => edgeDists p w.poly)) := by
              refine ih _ ?_
              calc minList b (edgeDists p w.poly) ≤ b := minList_le _ _
                _ ≤ (10 : ℚ) ^ 36 := hb
        _ = minList b ((w :: ws).flatMap (fun w => edgeDists p w.poly)) := by
              rw [List.flatMap_cons, minList_append]

theorem selectL_fst (walls : List Wall) (p : Point) :
    ((walls.map (fun w =>
        ((closest_wall_edge w.poly p).1, (w, ((closest_wall_edge w.poly p).2).map Prod.fst)))).map Prod.fst)
      = walls.map (wallMin p) := by
  rw [List.map_map]
  have : (Prod.fst ∘ fun w : Wall =>
      ((closest_wall_edge w.poly p).1, (w, ((closest_wall_edge w.poly p).2).map Prod.fst)))
      = fun w => (closest_wall_edge w.poly p).1 := rfl
  rw [this]
  have : (fun w : Wall => (closest_wall_edge w.poly p).1) = wallMin p := by
    funext w
    rw [closest_fst]
    rfl
  rw [this]

/-- C3 (as amended).  Provided some wall edge lies strictly within the
source's host-search cutoff (`best = (1e9, ...)`, squared here to
`1e18`), the host loop of `build_hosted` selects exactly the (wall, edge)
pair described by the spec: the returned distance is the global minimum
`m` of the point-to-segment distances over all edges of all walls, the
returned wall is the *first* wall in input order whose minimal edge
distance equals `m`, and the returned edge is that wall's first edge
attaining `m`.  When every edge is at or beyond the cutoff the loop binds
no host at all (the opening is dropped), which is where the claim as
stated fails. -/
theorem C3_host_selection (walls : List Wall) (p : Point)
    (h : minList ((10 : ℚ) ^ 18) (walls.flatMap (fun w => edgeDists p w.poly)) < (10 : ℚ) ^ 18) :
    (select_host walls p).1
        = minList ((10 : ℚ) ^ 18) (walls.flatMap (fun w => edgeDists p w.poly))
    ∧ ((select_host walls p).2).map Prod.fst
        = walls.find? (fun w =>
            wallMin p w = minList ((10 : ℚ) ^ 18) (walls.flatMap (fun w => edgeDists p w.poly)))
    ∧ ((select_host walls p).2).bind Prod.snd
        = (walls.find? (fun w =>
            wallMin p w = minList ((10 : ℚ) ^ 18) (walls.flatMap (fun w => edgeDists p w.poly)))).bind
            (fun w => (adjPairs w.poly).find? (fun e =>
              (dist_point_to_segment p e.1 e.2).1
                = minList ((10 : ℚ) ^ 18) (walls.flatMap (fun w => edgeDists p w.poly)))) := by
  have hb36 : ((10 : ℚ) ^ 18) ≤ (10 : ℚ) ^ 36 := by norm_num
  have hnest := minList_nested p walls ((10 : ℚ) ^ 18) hb36
  have hfst : (select_host walls p).1
      = minList ((10 : ℚ) ^ 18) (walls.flatMap (fun w => edgeDists p w.poly)) := by
    unfold select_host
    rw [pick_fst, selectL_fst, hnest]
  have hlt : minList ((10 : ℚ) ^ 18)
      ((walls.map (fun w =>
        ((closest_wall_edge w.poly p).1, (w, ((closest_wall_edge w.poly p).2).map Prod.fst)))).map Prod.fst)
      < (10 : ℚ) ^ 18 := by
    rw [selectL_fst, hnest]
    exact h
  have hsnd := pick_snd
    ((walls.map (fun w =>
      ((closest_wall_edge w.poly p).1, (w, ((closest_wall_edge w.poly p).2).map Prod.fst)))))
    ((10 : ℚ) ^ 18) none hlt
  rw [selectL_fst, hnest] at hsnd
  rw [List.find?_map] at hsnd
  have hpred : ((fun q : ℚ × (Wall × Option (Point × Point)) =>
        decide (q.1 = minList ((10 : ℚ) ^ 18) (walls.flatMap (fun w => edgeDists p w.poly)))) ∘
      (fun w : Wall =>
        ((closest_wall_edge w.poly p).1, (w, ((closest_wall_edge w.poly p).2).map Prod.fst))))
      = fun w : Wall =>
        decide (wallMin p w = minList ((10 : ℚ) ^ 18) (walls.flatMap (fun w => edgeDists p w.poly))) := by
    funext w
    simp only [Function.comp]
    congr 1
    rw [closest_fst]
    rfl
  rw [hpred] at hsnd
  have hsnd' : (select_host walls p).2
      = (walls.find? (fun w =>
          wallMin p w = minList ((10 : ℚ) ^ 18) (walls.flatMap (fun w => edgeDists p w.poly)))).map
          (Prod.snd ∘ fun w : Wall =>
            ((closest_wall_edge w.poly p).1, (w, ((closest_wall_edge w.poly p).2).map Prod.fst))) := by
    unfold select_host
    rw [hsnd, Option.map_map]
  refine ⟨hfst, ?_, ?_⟩
  · rw [hsnd', Option.map_map]
    cases hfind : walls.find? (fun w =>
        wallMin p w = minList ((10 : ℚ) ^ 18) (walls.flatMap (fun w => edgeDists p w.poly))) with
    | none => rfl
    | some w => rfl
  · rw [hsnd']
    cases hfind : walls.find? (fun w =>
        wallMin p w = minList ((10 : ℚ) ^ 18) (walls.flatMap (fun w => edgeDists p w.poly))) with
    | none => rfl
    | some w =>
        have hw : wallMin p w
            = minList ((10 : ℚ) ^ 18) (walls.flatMap (fun w => edgeDists p w.poly)) := by
          have := List.find?_some hfind
          simpa using this
        have hwlt : minList ((10 : ℚ) ^ 36) (edgeDists p w.poly) < (10 : ℚ) ^ 36 := by
          have h1 : wallMin p w < (10 : ℚ) ^ 18 := by rw [hw]; exact h
          unfold wallMin at h1
          calc minList ((10 : ℚ) ^ 36) (edgeDists p w.poly) < (10 : ℚ) ^ 18 := h1
            _ ≤ (10 : ℚ) ^ 36 := hb36
        have hedge := closest_snd w.poly p hwlt
        have hwm : minList ((10 : ℚ) ^ 36) (edgeDists p w.poly)
            = minList ((10 : ℚ) ^ 18) (walls.flatMap (fun w => edgeDists p w.poly)) := by
          rw [← hw]; rfl
        rw [hwm] at hedge
        show ((closest_wall_edge w.poly p).2).map Prod.fst
          = (adjPairs w.poly).find? (fun e =>
              (dist_point_to_segment p e.1 e.2).1
                = minList ((10 : ℚ) ^ 18) (walls.flatMap (fun w => edgeDists p w.poly)))
        exact hedge

/-- C3 witness: one rectangular wall, centroid `(2,2)`; its top edge (at
squared distance `1`, inside the cutoff) wins. -/
theorem C3_witness :
    (select_host [⟨"w1", [(0, 0), (4, 0), (4, 1), (0, 1), (0, 0)]⟩] ((2 : ℚ), (2 : ℚ))).1
        = minList ((10 : ℚ) ^ 18)
            (([⟨"w1", [(0, 0), (4, 0), (4, 1), (0, 1), (0, 0)]⟩] : List Wall).flatMap
              (fun w => edgeDists ((2 : ℚ), (2 : ℚ)) w.poly))
    ∧ ((select_host [⟨"w1", [(0, 0), (4, 0), (4, 1), (0, 1), (0, 0)]⟩] ((2 : ℚ), (2 : ℚ))).2).map Prod.fst
        = ([⟨"w1", [(0, 0), (4, 0), (4, 1), (0, 1), (0, 0)]⟩] : List Wall).find? (fun w =>
            wallMin ((2 : ℚ), (2 : ℚ)) w
              = minList ((10 : ℚ) ^ 18)
                  (([⟨"w1", [(0, 0), (4, 0), (4, 1), (0, 1), (0, 0)]⟩] : List Wall).flatMap
                    (fun w => edgeDists ((2 : ℚ), (2 : ℚ)) w.poly)))
    ∧ ((select_host [⟨"w1", [(0, 0), (4, 0), (4, 1), (0, 1), (0, 0)]⟩] ((2 : ℚ), (2 : ℚ))).2).bind Prod.snd
        = (([⟨"w1", [(0, 0), (4, 0), (4, 1), (0, 1), (0, 0)]⟩] : List Wall).find? (fun w =>
            wallMin ((2 : ℚ), (2 : ℚ)) w
              = minList ((10 : ℚ) ^ 18)
                  (([⟨"w1", [(0, 0), (4, 0), (4, 1), (0, 1), (0, 0)]⟩] : List Wall).flatMap
                    (fun w => edgeDists ((2 : ℚ), (2 : ℚ)) w.poly)))).bind
            (fun w => (adjPairs w.poly).find? (fun e =>
              (dist_point_to_segment ((2 : ℚ), (2 : ℚ)) e.1 e.2).1
                = minList ((10 : ℚ) ^ 18)
                    (([⟨"w1", [(0, 0), (4, 0), (4, 1), (0, 1), (0, 0)]⟩] : List Wall).flatMap
                      (fun w => edgeDists ((2 : ℚ), (2 : ℚ)) w.poly)))) :=
  C3_host_selection [⟨"w1", [(0, 0), (4, 0), (4, 1), (0, 1), (0, 0)]⟩] ((2 : ℚ), (2 : ℚ))
    (by norm_num [minList, edgeDists, adjPairs, dist_point_to_segment])

/-- C3 counterexample to the claim as stated: a single wall (non-empty
list) whose every edge is farther than the source's `1e9` host-search
cutoff from the centroid — `build_hosted` binds no host at all (the
opening is dropped with a warning) instead of selecting the minimal
pair. -/
theorem C3_counterexample :
    ([⟨"far", [((2000000000 : ℚ), (0 : ℚ)), (2000000001, 0), (2000000001, 1), (2000000000, 1),
        (2000000000, 0)]⟩] : List Wall) ≠ []
    ∧ (select_host [⟨"far", [((2000000000 : ℚ), (0 : ℚ)), (2000000001, 0), (2000000001, 1),
        (2000000000, 1), (2000000000, 0)]⟩] ((0 : ℚ), (0 : ℚ))).2 = none := by
  refine ⟨by simp, ?_⟩
  norm_num [select_host, closest_wall_edge, adjPairs, dist_point_to_segment, pick]

/-- The numeric-token loop reads exactly the longest all-numeric prefix:
left-to-right, halting at the first token the conversion rejects. -/
theorem numsOf_takeWhile (toF : String → Option ℚ) (l : List String) :
    numsOf toF l = (l.takeWhile (fun t => (toF t).isSome)).filterMap toF := by
  induction l with
  | nil => rfl
  | cons t ts ih =>
      cases htf : toF t with
      | none => simp [numsOf, htf, List.takeWhile_cons]
      | some v => simp [numsOf, htf, List.takeWhile_cons, ih]

/-- C4: numeric tokens after the type token are parsed left to right,
halting at the first non-numeric token; a door identifier yields
`width = nums[0]` (so `token0` when two numeric tokens are present),
`sill = 0.0` always, and `height = nums[1]` with fallback `2.1`; a window
identifier falls back to `sill 0.9` when fewer than two and
`height 1.2` when fewer than three numeric tokens are present. -/
theorem C4_eid_numeric_parsing (toF : String → Option ℚ) (eid : String)
    (t0 t1 : String) (rest : List String)
    (htoks : eidTokens eid = t0 :: t1 :: rest) :
    numsOf toF rest = (rest.takeWhile (fun t => (toF t).isSome)).filterMap toF
    ∧ (strStarts (lowerStr t0) "w" = false → strStarts (lowerStr t0) "d" = true →
        parse_spec_from_eid toF eid =
          ⟨some "DOOR", some (normalize_type_token "DOOR" t1), (numsOf toF rest).get? 0,
            some 0, some ((numsOf toF rest).getD 1 (21 / 10))⟩)
    ∧ (strStarts (lowerStr t0) "w" = true →
        parse_spec_from_eid toF eid =
          ⟨some "WINDOW", some (normalize_type_token "WINDOW" t1), (numsOf toF rest).get? 0,
            some ((numsOf toF rest).getD 1 (9 / 10)), some ((numsOf toF rest).getD 2 (6 / 5))⟩) := by
  refine ⟨numsOf_takeWhile toF rest, ?_, ?_⟩
  · intro hw hd
    unfold parse_spec_from_eid
    rw [htoks]
    simp [hw, hd]
  · intro hw
    unfold parse_spec_from_eid
    rw [htoks]
    simp [hw]

/-- C4 witness: the source's own door example
`d1-DOUBLE_SWING-1.8-2.10` (lower-cased type token). -/
theorem C4_witness :
    numsOf decQ ["1.8", "2.10"]
        = ((["1.8", "2.10"] : List String).takeWhile (fun t => (decQ t).isSome)).filterMap decQ
    ∧ parse_spec_from_eid decQ "d1-double_swing-1.8-2.10" =
        ⟨some "DOOR", some (normalize_type_token "DOOR" "double_swing"),
          (numsOf decQ ["1.8", "2.10"]).get? 0, some 0,
          some ((numsOf decQ ["1.8", "2.10"]).getD 1 (21 / 10))⟩ := by
  have h := C4_eid_numeric_parsing decQ "d1-double_swing-1.8-2.10" "d1" "double_swing"
    ["1.8", "2.10"] (by decide)
  exact ⟨h.1, h.2.1 (by decide) (by decide)⟩

/-- Successful pairing consumes exactly two numbers per point. -/
theorem pairUp_len : ∀ (nums : List ℚ) (pts : List Point), pairUp nums = .ok pts →
    nums.length = 2 * pts.length
  | [], pts, h => by
      simp only [pairUp, Except.ok.injEq] at h
      subst h
      rfl
  | [_], _, h => by simp [pairUp] at h
  | a :: b :: t, pts, h => by
      simp only [pairUp] at h
      cases ht : pairUp t with
      | error e => rw [ht] at h; simp [Except.map] at h
      | ok r =>
          rw [ht] at h
          simp only [Except.map, Except.ok.injEq] at h
          subst h
          have hlen := pairUp_len t r ht
          simp only [List.length_cons, hlen]
          ring

/-- Polygon closure invariant of `parse_points_attr`: whatever list of
points it successfully returns starts and ends with the same point, and
the affine image under any transform still does. -/
theorem C10_parsed_polygons_closed (toF : String → Option ℚ) (toks : List String)
    (pts : List Point) (M : Mat3)
    (h : parse_points_attr toF toks = .ok (some pts)) :
    pts ≠ []
    ∧ pts.head? = pts.getLast?
    ∧ (apply_transform M pts).head? = (apply_transform M pts).getLast? := by
  unfold parse_points_attr at h
  cases hm : mapOpt toF toks with
  | none => rw [hm] at h; exact absurd h (by simp)
  | some nums =>
      rw [hm] at h
      dsimp only at h
      by_cases hlen : nums.length < 6
      · rw [if_pos hlen] at h
        exact absurd h (by simp)
      · rw [if_neg hlen] at h
        cases hpair : pairUp nums with
        | error e => rw [hpair] at h; exact absurd h (by simp)
        | ok pts0 =>
            rw [hpair] at h
            cases pts0 with
            | nil =>
                have h0 := pairUp_len nums [] hpair
                simp only [List.length_nil] at h0
                omega
            | cons p0 rest =>
                simp only [Except.ok.injEq, Option.some.injEq] at h
                subst h
                by_cases hcl : (p0 :: rest).getLast? = some p0
                · rw [if_pos hcl]
                  refine ⟨by simp, ?_, ?_⟩
                  · simp [hcl]
                  · unfold apply_transform
                    rw [List.head?_map, List.getLast?_map, hcl]
                    simp
                · rw [if_neg hcl]
                  refine ⟨by simp, ?_, ?_⟩
                  · rw [List.getLast?_concat]
                    simp
                  · unfold apply_transform
                    rw [List.head?_map, List.getLast?_map, List.getLast?_concat]
                    simp

/-- C10 witness: an *open* polyline vertex list (triangle without the
closing vertex); the parser closes it, in source and in transformed
coordinates. -/
theorem C10_witness :
    parse_points_attr decQ ["0", "0", "4", "0", "4", "3"]
        = .ok (some [((0 : ℚ), (0 : ℚ)), (4, 0), (4, 3), (0, 0)])
    ∧ ([((0 : ℚ), (0 : ℚ)), (4, 0), (4, 3), (0, 0)] : List Point) ≠ []
    ∧ ([((0 : ℚ), (0 : ℚ)), (4, 0), (4, 3), (0, 0)] : List Point).head?
        = ([((0 : ℚ), (0 : ℚ)), (4, 0), (4, 3), (0, 0)] : List Point).getLast?
    ∧ (apply_transform Mat3.id [((0 : ℚ), (0 : ℚ)), (4, 0), (4, 3), (0, 0)]).head?
        = (apply_transform Mat3.id [((0 : ℚ), (0 : ℚ)), (4, 0), (4, 3), (0, 0)]).getLast? := by
  have hp : parse_points_attr decQ ["0", "0", "4", "0", "4", "3"]
      = .ok (some [((0 : ℚ), (0 : ℚ)), (4, 0), (4, 3), (0, 0)]) := by
    simp [parse_points_attr, mapOpt, decQ, splitCharAux, digitsToNat, pairUp, Except.map,
      List.getLast?]
  have h := C10_parsed_polygons_closed decQ ["0", "0", "4", "0", "4", "3"]
    [((0 : ℚ), (0 : ℚ)), (4, 0), (4, 3), (0, 0)] Mat3.id hp
  exact ⟨hp, h.1, h.2.1, h.2.2⟩

/-- C5: the path flattener is a pure function of its token stream (and
of the fixed segment-count constant baked into `curveSamples` /
`arc_to_points`): two runs on equal inputs return identical polyline
lists with identical per-polyline vertex counts — there is no hidden
state or randomness in the embedding of the loop. -/
theorem C5_flatten_deterministic (tr : TrigOps) (toks1 toks2 : List PathTok)
    (h : toks1 = toks2) :
    path_to_polylines tr toks1 = path_to_polylines tr toks2
    ∧ (path_to_polylines tr toks1).map (List.map List.length)
        = (path_to_polylines tr toks2).map (List.map List.length) := by
  subst h
  exact ⟨rfl, rfl⟩

/-- C5 witness: the spec's Scenario D cubic
`M 0 0 C 3 10 7 10 10 0`, flattened twice. -/
theorem C5_witness :
    path_to_polylines trig0
        [.c 'M', .n 0, .n 0, .c 'C', .n 3, .n 10, .n 7, .n 10, .n 10, .n 0]
      = path_to_polylines trig0
        [.c 'M', .n 0, .n 0, .c 'C', .n 3, .n 10, .n 7, .n 10, .n 10, .n 0]
    ∧ (path_to_polylines trig0
        [.c 'M', .n 0, .n 0, .c 'C', .n 3, .n 10, .n 7, .n 10, .n 10, .n 0]).map
          (List.map List.length)
      = (path_to_polylines trig0
        [.c 'M', .n 0, .n 0, .c 'C', .n 3, .n 10, .n 7, .n 10, .n 10, .n 0]).map
          (List.map List.length) :=
  C5_flatten_deterministic trig0
    [.c 'M', .n 0, .n 0, .c 'C', .n 3, .n 10, .n 7, .n 10, .n 10, .n 0]
    [.c 'M', .n 0, .n 0, .c 'C', .n 3, .n 10, .n 7, .n 10, .n 10, .n 0] rfl

theorem mat3_mul_ident (M : Mat3) : M * Mat3.id = M := by
  cases M
  show Mat3.mul _ Mat3.id = _
  simp only [Mat3.mul, Mat3.id, Mat3.mk.injEq]
  refine ⟨by ring, by ring, by ring, by ring, by ring, by ring, by ring, by ring, by ring⟩

theorem parse_transform_go_some (tr : TrigOps) (toF : String → Option ℚ) :
    ∀ (prims : List Prim) (M : Mat3), (∀ p ∈ prims, (mapOpt toF p.2).isSome = true) →
    (parse_transform_go tr toF M prims).isSome = true := by
  intro prims
  induction prims with
  | nil => intro M _; rfl
  | cons p ps ih =>
      intro M hall
      have hp : (mapOpt toF p.2).isSome = true := hall p (List.mem_cons_self p ps)
      cases hv : mapOpt toF p.2 with
      | none => rw [hv] at hp; exact absurd hp (by simp)
      | some vals =>
          show (parse_transform_go tr toF M (p :: ps)).isSome = true
          unfold parse_transform_go
          rw [hv]
          exact ih _ (fun q hq => hall q (List.mem_cons_of_mem p hq))

theorem parse_transform_go_skip (tr : TrigOps) (toF : String → Option ℚ)
    (fn : String) (args : List String) (vals : List ℚ) (l2 : List Prim)
    (hv : mapOpt toF args = some vals)
    (hid : prim_matrix tr (lowerStr fn) vals = Mat3.id) :
    ∀ (l1 : List Prim) (M : Mat3),
    parse_transform_go tr toF M (l1 ++ (fn, args) :: l2) = parse_transform_go tr toF M (l1 ++ l2) := by
  intro l1
  induction l1 with
  | nil =>
      intro M
      show parse_transform_go tr toF M ((fn, args) :: l2) = parse_transform_go tr toF M l2
      unfold parse_transform_go
      rw [hv]
      dsimp only
      rw [hid, mat3_mul_ident]
      cases l2 <;> rfl
  | cons p ps ih =>
      intro M
      show parse_transform_go tr toF M (p :: (ps ++ (fn, args) :: l2))
        = parse_transform_go tr toF M (p :: (ps ++ l2))
      unfold parse_transform_go
      cases mapOpt toF p.2 with
      | none => rfl
      | some vals' => exact ih _

/-- C6 (as amended).  When every argument token of every primitive is
numeric, the transform chain parses successfully, composing left to
right, and a *recognized-shape* malformed primitive — an unrecognized
function name, or a `matrix` with fewer than six values — contributes the
identity, leaving the composed result unchanged.  (A primitive with a
non-numeric argument token instead raises, aborting the whole parse,
which is where the claim as stated fails.) -/
theorem C6_transform_chain (tr : TrigOps) (toF : String → Option ℚ)
    (l1 l2 : List Prim) (fn : String) (args : List String) (vals : List ℚ)
    (hall : ∀ p ∈ l1 ++ (fn, args) :: l2, (mapOpt toF p.2).isSome = true)
    (hv : mapOpt toF args = some vals)
    (hmal : lowerStr fn ∉ (["translate", "scale", "rotate", "matrix"] : List String)
        ∨ (lowerStr fn = "matrix" ∧ vals.length < 6)) :
    parse_transform tr toF (l1 ++ (fn, args) :: l2) = parse_transform tr toF (l1 ++ l2)
    ∧ (parse_transform tr toF (l1 ++ l2)).isSome = true := by
  have hid : prim_matrix tr (lowerStr fn) vals = Mat3.id := by
    rcases hmal with hnot | ⟨hmx, hlen⟩
    · simp only [List.mem_cons, List.mem_singleton, not_or] at hnot
      obtain ⟨h1, h2, h3, h4⟩ := hnot
      unfold prim_matrix
      rw [if_neg h1, if_neg h2, if_neg h3, if_neg (by simpa using h4)]
    · unfold prim_matrix
      rw [if_neg (by rw [hmx]; decide), if_neg (by rw [hmx]; decide),
        if_neg (by rw [hmx]; decide), if_pos hmx, if_neg (by omega)]
  constructor
  · exact parse_transform_go_skip tr toF fn args vals l2 hv hid l1 Mat3.id
  · apply parse_transform_go_some
    intro p hp
    apply hall
    rcases List.mem_append.mp hp with h1 | h2
    · exact List.mem_append.mpr (Or.inl h1)
    · exact List.mem_append.mpr (Or.inr (List.mem_cons_of_mem _ h2))

/-- C6 witness: `translate(1,2) frobnicate() scale(2)` — the unknown
primitive contributes the identity and the chain parses. -/
theorem C6_witness :
    parse_transform trig0 decQ
        [("translate", ["1", "2"]), ("frobnicate", []), ("scale", ["2"])]
      = parse_transform trig0 decQ [("translate", ["1", "2"]), ("scale", ["2"])]
    ∧ (parse_transform trig0 decQ [("translate", ["1", "2"]), ("scale", ["2"])]).isSome = true :=
  C6_transform_chain trig0 decQ [("translate", ["1", "2"])] [("scale", ["2"])] "frobnicate" [] []
    (by decide) (by decide) (Or.inl (by decide))

/-- C6 counterexample to the claim as stated: the chain
`translate(abc)` — one primitive whose argument token is not numeric —
does not contribute an identity term; `float("abc")` raises and the whole
parse aborts (`none`), so parsing does not "never raise". -/
theorem C6_counterexample :
    parse_transform trig0 decQ [("translate", ["abc"])] = none := by
  decide

theorem mapOpt_some_of_all (toF : String → Option ℚ) :
    ∀ toks : List String, (∀ t ∈ toks, (toF t).isSome = true) →
    ∃ nums : List ℚ, mapOpt toF toks = some nums ∧ nums.length = toks.length := by
  intro toks
  induction toks with
  | nil => intro _; exact ⟨[], rfl, rfl⟩
  | cons t ts ih =>
      intro hall
      have ht : (toF t).isSome = true := hall t (List.mem_cons_self t ts)
      cases hv : toF t with
      | none => rw [hv] at ht; exact absurd ht (by simp)
      | some v =>
          obtain ⟨nums, hnums, hlen⟩ := ih (fun q hq => hall q (List.mem_cons_of_mem t hq))
          refine ⟨v :: nums, ?_, by simp [hlen]⟩
          unfold mapOpt
          rw [hv, hnums]

theorem except_map_self : ∀ e : Except String (List Shp), Except.map (fun r => r) e = e := by
  intro e
  cases e <;> rfl

/-- A node whose polygon extraction yields `None` contributes no
classified shape: the walk continues with its children (under the node's
composed transform) and the remaining queue. -/
theorem walkShapes_step_none (toF : String → Option ℚ) (tr : TrigOps) (fuel : ℕ) (M : Mat3)
    (rest : List (Mat3 × XNode)) (sh : ShapeAttr) (fill : Option (ℤ × ℤ × ℤ)) (eid : String)
    (cs : List XNode) (hsh : shape_poly toF sh = .ok none) :
    walkShapes toF tr (fuel + 1) ((M, .mk sh fill [] eid cs) :: rest)
      = walkShapes toF tr fuel (cs.map (fun c => (M, c)) ++ rest) := by
  have h1 : parse_transform tr toF ([] : List Prim) = some Mat3.id := rfl
  simp only [walkShapes, h1]
  rw [hsh]
  dsimp only
  simp only [mat3_mul_ident, List.nil_append]
  exact except_map_self _

/-- C7 (as amended).  A polygon/polyline with fewer than three
coordinate pairs, and a rectangle with non-positive width or height, are
dropped silently — the walk yields nothing for them and raises no error.
(A *zero-area* polygon with three or more vertices is NOT dropped, which
is where the claim as stated fails; see the counterexample.) -/
theorem C7_degenerate_shapes_dropped (toF : String → Option ℚ) (tr : TrigOps) (fuel : ℕ)
    (M : Mat3) (rest : List (Mat3 × XNode)) (fill : Option (ℤ × ℤ × ℤ)) (eid : String)
    (cs : List XNode) :
    (∀ toks : List String, (∀ t ∈ toks, (toF t).isSome = true) → toks.length < 6 →
        walkShapes toF tr (fuel + 1) ((M, .mk (.pts toks) fill [] eid cs) :: rest)
          = walkShapes toF tr fuel (cs.map (fun c => (M, c)) ++ rest))
    ∧ (∀ x y w h : ℚ, w ≤ 0 ∨ h ≤ 0 →
        walkShapes toF tr (fuel + 1) ((M, .mk (.rect x y w h) fill [] eid cs) :: rest)
          = walkShapes toF tr fuel (cs.map (fun c => (M, c)) ++ rest)) := by
  constructor
  · intro toks hall hlen
    obtain ⟨nums, hnums, hlenn⟩ := mapOpt_some_of_all toF toks hall
    apply walkShapes_step_none
    simp only [shape_poly, parse_points_attr]
    rw [hnums]
    dsimp only
    rw [if_pos (by omega)]
  · intro x y w h hwh
    apply walkShapes_step_none
    simp only [shape_poly]
    rw [if_neg]
    rcases hwh with h1 | h1
    · intro hcon
      exact absurd hcon.1 (not_lt.mpr h1)
    · intro hcon
      exact absurd hcon.2 (not_lt.mpr h1)

/-- C7 witness: a two-coordinate-pair polyline and a zero-width
rectangle, both classified as walls, both dropped without error. -/
theorem C7_witness :
    walkShapes decQ trig0 1
        [(Mat3.id, .mk (.pts ["0", "0", "1", "1"]) (some (0, 0, 0)) [] "a" [])]
      = walkShapes decQ trig0 0 []
    ∧ walkShapes decQ trig0 1
        [(Mat3.id, .mk (.rect 0 0 0 5) (some (0, 0, 0)) [] "b" [])]
      = walkShapes decQ trig0 0 [] := by
  have h := C7_degenerate_shapes_dropped decQ trig0 0 Mat3.id [] (some (0, 0, 0)) "a" []
  have h' := C7_degenerate_shapes_dropped decQ trig0 0 Mat3.id [] (some (0, 0, 0)) "b" []
  exact ⟨h.1 ["0", "0", "1", "1"] (by decide) (by decide), h'.2 0 0 0 5 (Or.inl le_rfl)⟩

/-- C7 counterexample to the claim as stated: the degenerate (collinear,
zero-area) polygon `0,0 1,1 2,2` with a wall fill is NOT dropped — the
walk yields it as a classified shape, even though its shoelace area is
zero. -/
theorem C7_counterexample :
    iter_floorplan_shapes decQ trig0 2
        (.mk (.pts ["0", "0", "1", "1", "2", "2"]) (some (0, 0, 0)) [] "z" [])
      = .ok [("wall", [((0 : ℚ), (0 : ℚ)), (1, 1), (2, 2), (0, 0)], "z")]
    ∧ polyArea [((0 : ℚ), (0 : ℚ)), (1, 1), (2, 2), (0, 0)] = 0 := by
  constructor
  · have hpp : parse_points_attr decQ ["0", "0", "1", "1", "2", "2"]
        = .ok (some [((0 : ℚ), (0 : ℚ)), (1, 1), (2, 2), (0, 0)]) := by
      simp [parse_points_attr, mapOpt, decQ, splitCharAux, digitsToNat, pairUp, Except.map,
        List.getLast?]
    have hsp : shape_poly decQ (.pts ["0", "0", "1", "1", "2", "2"])
        = .ok (some [((0 : ℚ), (0 : ℚ)), (1, 1), (2, 2), (0, 0)]) := by
      simp only [shape_poly]
      exact hpp
    have h1 : parse_transform trig0 decQ ([] : List Prim) = some Mat3.id := rfl
    simp only [iter_floorplan_shapes, walkShapes, h1, hsp]
    rw [mat3_mul_ident]
    norm_num [classify_fill, apply_transform, Mat3.id, Except.map]
  · norm_num [polyArea, adjPairs]

theorem copy_loop_len (copyOk : IfcProduct → Bool) (i : ℕ) :
    ∀ (ps : List IfcProduct) (cnt : ℕ),
    (copy_loop copyOk i ps cnt).length = (ps.filter copyOk).length := by
  intro ps
  induction ps with
  | nil => intro _; rfl
  | cons p t ih =>
      intro cnt
      by_cases hp : copyOk p
      · simp [copy_loop, hp, List.filter_cons, ih]
      · simp [copy_loop, hp, List.filter_cons, ih]

/-- C9: merging `N > 1` floors yields exactly `N` storeys, one per floor
in input order carrying that floor's elevation; the element count copied
into storey `i` equals the number of supported-category products of
source floor `i` whose external copy succeeds (failures are skipped, the
merge never aborts), and when every copy succeeds it equals the number of
supported-category products found. -/
theorem C9_merge_cardinality (tr : TrigOps) (copyOk : IfcProduct → Bool)
    (floors : List FloorData) (h : 1 < floors.length) :
    ((merge_ifc_files tr copyOk floors).toOption.bind merged_storeys).map List.length
        = some floors.length
    ∧ ((merge_ifc_files tr copyOk floors).toOption.bind merged_storeys).map
        (List.map StoreyOut.elevation) = some (floors.map FloorData.elevation)
    ∧ ((merge_ifc_files tr copyOk floors).toOption.bind merged_storeys).map
        (List.map (fun st => st.copied.length))
        = some (floors.map (fun fd => ((collect_products fd.entities).filter copyOk).length))
    ∧ ((∀ q : IfcProduct, copyOk q = true) →
        ((merge_ifc_files tr copyOk floors).toOption.bind merged_storeys).map
          (List.map (fun st => st.copied.length))
          = some (floors.map (fun fd => (collect_products fd.entities).length))) := by
  match floors, h with
  | a :: b :: t, _ =>
    have hbind : (merge_ifc_files tr copyOk (a :: b :: t)).toOption.bind merged_storeys
        = some ((a :: b :: t).enum.map (mkStorey tr copyOk)) := rfl
    have helev : (StoreyOut.elevation ∘ mkStorey tr copyOk)
        = (fun fd : FloorData => fd.elevation) ∘ Prod.snd := by
      funext q
      simp only [Function.comp, mkStorey]
    have hcopy : ((fun st : StoreyOut => st.copied.length) ∘ mkStorey tr copyOk)
        = (fun q : ℕ × FloorData =>
            (copy_loop copyOk q.1 (collect_products q.2.entities) 0).length) := by
      funext q
      simp only [Function.comp, mkStorey]
    refine ⟨?_, ?_, ?_, ?_⟩
    · rw [hbind]
      simp [List.enum_length]
    · rw [hbind]
      simp only [Option.map_some', Option.some.injEq, List.map_map]
      rw [helev, ← List.map_map, List.enum_map_snd]
    · rw [hbind]
      simp only [Option.map_some', Option.some.injEq, List.map_map]
      rw [hcopy]
      have h2 : ((a :: b :: t).enum.map (fun q : ℕ × FloorData =>
          (copy_loop copyOk q.1 (collect_products q.2.entities) 0).length))
          = ((a :: b :: t).enum.map ((fun fd : FloorData =>
              ((collect_products fd.entities).filter copyOk).length) ∘ Prod.snd)) := by
        apply List.map_congr_left
        intro q _
        simp only [Function.comp]
        exact copy_loop_len copyOk q.1 (collect_products q.2.entities) 0
      rw [h2, ← List.map_map, List.enum_map_snd]
    · intro hall
      rw [hbind]
      simp only [Option.map_some', Option.some.injEq, List.map_map]
      rw [hcopy]
      have h2 : ((a :: b :: t).enum.map (fun q : ℕ × FloorData =>
          (copy_loop copyOk q.1 (collect_products q.2.entities) 0).length))
          = ((a :: b :: t).enum.map ((fun fd : FloorData =>
              (collect_products fd.entities).length) ∘ Prod.snd)) := by
        apply List.map_congr_left
        intro q _
        simp only [Function.comp]
        have hfe : (collect_products q.2.entities).filter copyOk = collect_products q.2.entities :=
          List.filter_eq_self.mpr (fun a _ => hall a)
        rw [copy_loop_len copyOk q.1 (collect_products q.2.entities) 0, hfe]
      rw [h2, ← List.map_map, List.enum_map_snd]

/-- C9 witness: two floors (elevations `0` and `3`), one wall plus one
slab on the ground floor and one wall on the upper floor, every copy
succeeding. -/
theorem C9_witness :
    ((merge_ifc_files trig0 (fun _ => true)
        [⟨0, 0, 0, 0, [⟨"IfcWall", some "W0"⟩, ⟨"IfcSlab", none⟩]⟩,
         ⟨3, 0, 0, 0, [⟨"IfcWall", some "W1"⟩]⟩]).toOption.bind merged_storeys).map List.length
      = some 2
    ∧ ((merge_ifc_files trig0 (fun _ => true)
        [⟨0, 0, 0, 0, [⟨"IfcWall", some "W0"⟩, ⟨"IfcSlab", none⟩]⟩,
         ⟨3, 0, 0, 0, [⟨"IfcWall", some "W1"⟩]⟩]).toOption.bind merged_storeys).map
        (List.map StoreyOut.elevation) = some [0, 3]
    ∧ ((merge_ifc_files trig0 (fun _ => true)
        [⟨0, 0, 0, 0, [⟨"IfcWall", some "W0"⟩, ⟨"IfcSlab", none⟩]⟩,
         ⟨3, 0, 0, 0, [⟨"IfcWall", some "W1"⟩]⟩]).toOption.bind merged_storeys).map
        (List.map (fun st => st.copied.length)) = some [2, 1] := by
  have h := C9_merge_cardinality trig0 (fun _ => true)
    [⟨0, 0, 0, 0, [⟨"IfcWall", some "W0"⟩, ⟨"IfcSlab", none⟩]⟩,
     ⟨3, 0, 0, 0, [⟨"IfcWall", some "W1"⟩]⟩] (by norm_num)
  refine ⟨h.1, ?_, ?_⟩
  · rw [h.2.1]
    rfl
  · rw [h.2.2.2 (fun q => rfl)]
    simp [collect_products, product_types, List.filter]

end SvgIfc
